import Mathlib

/-!
Verification of the HierarchyBrowserv2 provider framework.

This file gives a shallow embedding, in Lean 4, of the parts of the
repository that the verified properties talk about:

* the Python scalar values that flow through provider object dictionaries
  (`PyVal`), with Python stringification (`pyStr`) and Python `==` / dict-key
  equality (`pyEq`);
* the path / command pipeline engine of `src/providers/base.py`
  (`parse_command_pipeline`, `normalize_groupby_show_tokens`,
  `group_objects_by_property`, `build_objects_for_path`);
* the wire message discrimination and dispatch of `src/providers/base.py`
  (`is_get_root_objects`, `is_get_info`, `is_get_objects`,
  `extract_object_id`, `handle_message`, and the per-line JSON decoding of
  `JsonLineHandler.handle`);
* the asynchronous search manager of `src/providers/Modules/provider.py`
  (`ModulesProvider.search`) together with the serialized forms of
  `WPLmodSearchHandle` and `WPLmodSearchProgress` from
  `src/providers/Modules/search_objects.py`;
* the typed-object reconstruction of the Qt browser
  (`_to_typed_objects` and `_obj_to_dict` in
  `src/browsers/PythonQT5/browser.py`).

Python strings are modelled as `List Char` at the parsing level (`Chars`)
and as `String` elsewhere; Python dictionaries whose insertion order is
observable are modelled as association lists in insertion order.
-/

/-- The scalar Python values that appear in provider object dictionaries:
strings, ints, bools and `None`.  (`to_dict` payloads of the objects the
verified claims range over contain only these.) -/
inductive PyVal where
  | vstr (s : String)
  | vint (n : Int)
  | vbool (b : Bool)
  | vnone
deriving DecidableEq, Repr

/-- Python `str()` on a scalar value: strings are unchanged, ints print in
decimal, bools print as `True` / `False`, `None` prints as `None`. -/
def pyStr : PyVal → String
  | .vstr s => s
  | .vint n => toString n
  | .vbool b => if b then "True" else "False"
  | .vnone => "None"

/-- Python `==` (also dict-key equality): numbers compare by numeric value,
so `True == 1` and `False == 0`; strings compare to strings; values of
unrelated kinds are unequal; `None` equals only `None`. -/
def pyEq : PyVal → PyVal → Bool
  | .vstr a, .vstr b => a = b
  | .vint a, .vint b => a = b
  | .vbool a, .vbool b => a = b
  | .vint a, .vbool b => a = (if b then (1 : Int) else 0)
  | .vbool a, .vint b => (if a then (1 : Int) else 0) = b
  | .vnone, .vnone => true
  | _, _ => false

/-- A provider object, represented by its `to_dict()` payload: an
association list of field names to scalar values, in insertion order.
`build_objects_for_path` and `_group_objects_by_property` only interact with
objects through `to_dict()` (and through `ProviderObject.search`, itself
defined from `to_dict()`), so this representation is faithful. -/
abbrev Dict := List (String × PyVal)

/-- Python `payload.get(key)`: the value of the first matching key, and
`None` when the key is absent.  (A stored `None` and an absent key are
indistinguishable through `get`, exactly as in the source.) -/
def dictGet (d : Dict) (key : String) : PyVal :=
  match d with
  | [] => .vnone
  | (k, v) :: rest => if k = key then v else dictGet rest key

/-- `od.get(p)` where `p` may be Python `None` (an absent token property):
`dict.get(None)` on the dictionaries in scope returns `None`. -/
def dictGetOpt (d : Dict) (key : Option String) : PyVal :=
  match key with
  | some k => dictGet d k
  | none => .vnone

/-- Characters of a Python string, for the token parsing of
`_parse_command_pipeline`. -/
abbrev Chars := List Char

/-- Python `s.startswith(t)` on character lists (`t` is the first
argument). -/
def charsPrefix : Chars → Chars → Bool
  | [], _ => true
  | _ :: _, [] => false
  | a :: as, b :: bs => a = b ∧ charsPrefix as bs

/-- `path_str.lstrip("/")`. -/
def lstripSlash (l : Chars) : Chars := l.dropWhile (fun c => c = '/')

/-- `base.endswith(">")`. -/
def endsGt (l : Chars) : Bool := l.getLast? = some '>'

/-- `base.rsplit("/<", 1)` restricted to the case where the separator
occurs: returns `some (head, tail)` with `base = head ++ "/<" ++ tail` split
at the last occurrence of `"/<"`, and `none` when `"/<" not in base`. -/
def rsplitLtSlash : Chars → Option (Chars × Chars)
  | [] => none
  | c :: rest =>
    match rsplitLtSlash rest with
    | some (h, t) => some (c :: h, t)
    | none =>
      if c = '/' ∧ rest.head? = some '<' then some ([], rest.drop 1) else none

theorem rsplitLtSlash_length {l h t : Chars} (hs : rsplitLtSlash l = some (h, t)) :
    h.length + t.length + 2 = l.length := by
  induction l generalizing h t with
  | nil => simp [rsplitLtSlash] at hs
  | cons c rest ih =>
    simp only [rsplitLtSlash] at hs
    cases hrec : rsplitLtSlash rest with
    | some p =>
      obtain ⟨h1, t1⟩ := p
      rw [hrec] at hs
      simp only [Option.some.injEq, Prod.mk.injEq] at hs
      obtain ⟨hh, ht⟩ := hs
      subst hh ht
      have := ih hrec
      simp [List.length_cons]
      omega
    | none =>
      rw [hrec] at hs
      by_cases hc : c = '/' ∧ rest.head? = some '<'
      · rw [if_pos hc] at hs
        simp only [Option.some.injEq, Prod.mk.injEq] at hs
        obtain ⟨hh, ht⟩ := hs
        subst hh ht
        cases rest with
        | nil => simp at hc
        | cons r rs => simp [List.length_cons]
      · rw [if_neg hc] at hs
        exact absurd hs (by simp)

theorem rsplitLtSlash_append_eq {l h t : Chars} (hs : rsplitLtSlash l = some (h, t)) :
    l = h ++ '/' :: '<' :: t := by
  induction l generalizing h t with
  | nil => simp [rsplitLtSlash] at hs
  | cons c rest ih =>
    simp only [rsplitLtSlash] at hs
    cases hrec : rsplitLtSlash rest with
    | some p =>
      obtain ⟨h1, t1⟩ := p
      rw [hrec] at hs
      simp only [Option.some.injEq, Prod.mk.injEq] at hs
      obtain ⟨hh, ht⟩ := hs
      subst hh ht
      simp [ih hrec]
    | none =>
      rw [hrec] at hs
      by_cases hc : c = '/' ∧ rest.head? = some '<'
      · rw [if_pos hc] at hs
        simp only [Option.some.injEq, Prod.mk.injEq] at hs
        obtain ⟨hh, ht⟩ := hs
        subst hh ht
        obtain ⟨hc1, hc2⟩ := hc
        subst hc1
        cases rest with
        | nil => simp at hc2
        | cons r rs =>
          simp only [List.head?] at hc2
          injection hc2 with hr
          subst hr
          simp
      · rw [if_neg hc] at hs
        exact absurd hs (by simp)

theorem rsplitLtSlash_of_no_lt {l : Chars} (hl : '<' ∉ l) : rsplitLtSlash l = none := by
  induction l with
  | nil => rfl
  | cons c rest ih =>
    have hc : '<' ∉ rest := fun h => hl (List.mem_cons_of_mem _ h)
    simp only [rsplitLtSlash, ih hc]
    have : rest.head? ≠ some '<' := by
      intro h
      cases rest with
      | nil => simp at h
      | cons r rs =>
        simp only [List.head?] at h
        injection h with hr
        exact hl (by simp [hr])
    simp [this]

theorem rsplitLtSlash_cons_lt {l : Chars} (hl : rsplitLtSlash l = none) :
    rsplitLtSlash ('<' :: l) = none := by
  simp [rsplitLtSlash, hl]

theorem rsplitLtSlash_append {A B : Chars} (hB : rsplitLtSlash ('<' :: B) = none) :
    rsplitLtSlash (A ++ '/' :: '<' :: B) = some (A, B) := by
  induction A with
  | nil =>
    have step : rsplitLtSlash ('/' :: '<' :: B) =
        match rsplitLtSlash ('<' :: B) with
        | some (h, t) => some ('/' :: h, t)
        | none =>
          if ('/' : Char) = '/' ∧ ('<' :: B).head? = some '<' then
            some ([], ('<' :: B).drop 1)
          else none := rfl
    rw [List.nil_append, step, hB]
    simp [List.head?]
  | cons a A ih =>
    have step : rsplitLtSlash (a :: (A ++ '/' :: '<' :: B)) =
        match rsplitLtSlash (A ++ '/' :: '<' :: B) with
        | some (h, t) => some (a :: h, t)
        | none =>
          if a = '/' ∧ (A ++ '/' :: '<' :: B).head? = some '<' then
            some ([], (A ++ '/' :: '<' :: B).drop 1)
          else none := rfl
    rw [List.cons_append, step, ih]

/-- Split a string at the first `':'`: `some` of the remainder when a colon
occurs, mirroring one step of Python `token.split(":", 2)`. -/
def splitFirstColon : Chars → Chars × Option Chars
  | [] => ([], none)
  | c :: rest =>
    if c = ':' then ([], some rest)
    else
      let (a, r) := splitFirstColon rest
      (c :: a, r)

theorem splitFirstColon_no_colon {l : Chars} (hl : ':' ∉ l) :
    splitFirstColon l = (l, none) := by
  induction l with
  | nil => rfl
  | cons c rest ih =>
    have hc : c ≠ ':' := fun h => hl (by simp [h])
    have hr : ':' ∉ rest := fun h => hl (List.mem_cons_of_mem _ h)
    simp [splitFirstColon, hc, ih hr]

theorem splitFirstColon_append {A R : Chars} (hA : ':' ∉ A) :
    splitFirstColon (A ++ ':' :: R) = (A, some R) := by
  induction A with
  | nil => simp [splitFirstColon]
  | cons a A ih =>
    have ha : a ≠ ':' := fun h => hA (by simp [h])
    have hr : ':' ∉ A := fun h => hA (List.mem_cons_of_mem _ h)
    simp [splitFirstColon, ha, ih hr]

/-- A parsed command token `(command, prop, value)`, where `prop` and
`value` are `none` when the corresponding `parts` entry is missing —
Python `token.split(":", 2)` yielding fewer than 2 or 3 parts. -/
abbrev Tok := String × Option String × Option String

/-- `token.split(":", 2)` followed by the
`cmd = parts[0]; prop = parts[1] if ...; value = parts[2] if ...`
destructuring of `_parse_command_pipeline`. -/
def splitTok (token : Chars) : Tok :=
  let (a, r) := splitFirstColon token
  match r with
  | none => (String.mk a, none, none)
  | some r1 =>
    let (b, r2) := splitFirstColon r1
    (String.mk a, some (String.mk b), r2.map String.mk)

/-- The `while base.endswith(">")` peeling loop of
`_parse_command_pipeline`, with explicit fuel (each iteration strictly
shrinks the base, so `base.length + 1` steps always suffice): repeatedly
strip a trailing `/<...>` segment (or a single leading `<...>` token when
no `"/<"` occurs) and prepend the parsed token. -/
def peelTokensFuel : Nat → Chars → List Tok → Chars × List Tok
  | 0, base, acc => (base, acc)
  | fuel + 1, base, acc =>
    if endsGt base then
      match rsplitLtSlash base with
      | some (h, t) => peelTokensFuel fuel h (splitTok t.dropLast :: acc)
      | none =>
        if base.head? = some '<' then
          peelTokensFuel fuel [] (splitTok ((base.drop 1).dropLast) :: acc)
        else (base, acc)
    else (base, acc)

theorem peelTokensFuel_sufficient {fuel1 fuel2 : Nat} {base : Chars} {acc : List Tok}
    (h1 : base.length < fuel1) (h2 : base.length < fuel2) :
    peelTokensFuel fuel1 base acc = peelTokensFuel fuel2 base acc := by
  induction fuel1 generalizing fuel2 base acc with
  | zero => omega
  | succ f1 ih =>
    cases fuel2 with
    | zero => omega
    | succ f2 =>
      simp only [peelTokensFuel]
      by_cases hgt : endsGt base
      · simp only [hgt, if_true]
        cases hs : rsplitLtSlash base with
        | some p =>
          obtain ⟨h, t⟩ := p
          have hlen := rsplitLtSlash_length hs
          exact ih (by omega) (by omega)
        | none =>
          by_cases hlt : base.head? = some '<'
          · simp only [hlt, if_pos rfl]
            have hbase : 0 < base.length := by
              cases base with
              | nil => simp at hlt
              | cons b bs => simp
            exact ih (by simp only [List.length_nil]; omega)
              (by simp only [List.length_nil]; omega)
          · simp [hlt]
      · simp [hgt]

/-- The peeling loop at its canonical fuel. -/
def peelTokens (base : Chars) (acc : List Tok) : Chars × List Tok :=
  peelTokensFuel (base.length + 1) base acc

/-- `peelTokens` satisfies the defining equation of the source loop. -/
theorem peelTokens_unfold (base : Chars) (acc : List Tok) :
    peelTokens base acc =
      if endsGt base then
        match rsplitLtSlash base with
        | some (h, t) => peelTokens h (splitTok t.dropLast :: acc)
        | none =>
          if base.head? = some '<' then
            peelTokens [] (splitTok ((base.drop 1).dropLast) :: acc)
          else (base, acc)
      else (base, acc) := by
  show peelTokensFuel (base.length + 1) base acc = _
  simp only [peelTokensFuel]
  by_cases hgt : endsGt base
  · simp only [hgt, if_true]
    cases hs : rsplitLtSlash base with
    | some p =>
      obtain ⟨h, t⟩ := p
      have hlen := rsplitLtSlash_length hs
      exact peelTokensFuel_sufficient (by omega) (by omega)
    | none =>
      by_cases hlt : base.head? = some '<'
      · simp only [hlt, if_pos rfl]
        have hbase : 0 < base.length := by
          cases base with
          | nil => simp at hlt
          | cons b bs => simp
        exact peelTokensFuel_sufficient (by simp only [List.length_nil]; omega)
          (by simp only [List.length_nil]; omega)
      · simp [hlt]
  · simp [hgt]

/-- `_parse_command_pipeline` of `src/providers/base.py` (lines 490-521):
parse the base path and all trailing command tokens, tokens in
left-to-right order.  (`startswith` is expressed on the character lists.) -/
def parseCommandPipeline (pathStr : String) : String × List Tok :=
  let (base, tokens) := peelTokens (lstripSlash pathStr.data) []
  let base :=
    if base = [] then ['/']
    else if charsPrefix ['/'] pathStr.data ∧ ¬charsPrefix ['/'] base then '/' :: base
    else base
  (String.mk base, tokens)

/-- `_normalize_groupby_show_tokens` of `src/providers/base.py` (lines
523-551): collapse `GroupBy:X` immediately followed by `Show:X:V` (with a
present value) into just the `Show:X:V`. -/
def normalizeGroupbyShowTokens : List Tok → List Tok
  | [] => []
  | [t] => [t]
  | t :: t2 :: rest2 =>
    if t.1 = "GroupBy" ∧ t2.1 = "Show" ∧ t2.2.1 = t.2.1 ∧ t2.2.2 ≠ none then
      t2 :: normalizeGroupbyShowTokens rest2
    else t :: normalizeGroupbyShowTokens (t2 :: rest2)

/-- `needle in hay` (Python string containment). -/
def charsContains (needle : Chars) : Chars → Bool
  | [] => needle = []
  | b :: bs => charsPrefix needle (b :: bs) ∨ charsContains needle bs

/-- `s.lower()` (the strings in scope are ASCII). -/
def lowerChars (l : Chars) : Chars := l.map Char.toLower

/-- `ProviderObject.search` of `src/providers/base.py` (lines 406-442):
case-insensitive substring match of `value_string` against every stringified
field of the payload when `prop_string == "all"`, otherwise against the
single named field; `None`-valued fields never match. -/
def searchMatch (payload : Dict) (propString valueString : String) : Bool :=
  let needleLc := lowerChars valueString.data
  if propString = "all" then
    payload.any (fun kv =>
      ¬(kv.2 = .vnone) ∧ charsContains needleLc (lowerChars (pyStr kv.2).data))
  else
    let v := dictGet payload propString
    if v = .vnone then false
    else charsContains needleLc (lowerChars (pyStr v).data)

/-- The `Show` filter of `build_objects_for_path`: keep the objects whose
property `prop` is non-`None` and stringifies to `value`. -/
def showFilter (objs : List Dict) (prop value : String) : List Dict :=
  objs.filter (fun o =>
    let v := dictGet o prop
    ¬(v = .vnone) ∧ pyStr v = value)

/-- `str(x)` of a token component that may be Python `None`. -/
def tokValStr : Option String → String
  | some s => s
  | none => "None"

/-- The inline filter of the multi-token branches of
`build_objects_for_path` (lines 339-349 and 353-363), where the token
property and value are passed through unchecked. -/
def applyShowTok (objs : List Dict) (p v : Option String) : List Dict :=
  objs.filter (fun o =>
    let vv := dictGetOpt o p
    ¬(vv = .vnone) ∧ pyStr vv = tokValStr v)

/-- `counts[v] = counts.get(v, 0) + 1` on an insertion-ordered Python dict:
if some existing key is `==`-equal to `v` its count is bumped (the stored
key keeps its first-seen identity), otherwise `(v, 1)` is appended. -/
def bumpCount : List (PyVal × Nat) → PyVal → List (PyVal × Nat)
  | [], v => [(v, 1)]
  | (k, n) :: rest, v =>
    if pyEq k v then (k, n + 1) :: rest else (k, n) :: bumpCount rest v

/-- The `counts` accumulation loop of `_group_objects_by_property`
(lines 562-570): count objects by the value of `prop`, skipping `None`. -/
def groupCounts (objects : List Dict) (prop : String) : List (PyVal × Nat) :=
  objects.foldl (fun cs o =>
    let v := dictGet o prop
    if v = .vnone then cs else bumpCount cs v) []

/-- `WPGroup(...).to_dict()`: the core quintuple, no extras. -/
def wpGroupToDict (id title icon : String) (objects : Nat) : Dict :=
  [("class", .vstr "WPGroup"), ("id", .vstr id), ("title", .vstr title),
   ("icon", .vstr icon), ("objects", .vint objects)]

/-- `if id.startswith("//"): id = id[1:]` (lines 580-581). -/
def stripLeadingDoubleSlash (id0 : String) : String :=
  if charsPrefix ['/', '/'] id0.data then String.mk (id0.data.drop 1) else id0

/-- `_group_objects_by_property` of `src/providers/base.py` (lines 554-589).
The group id is built from `path_str` — the full original request path,
including its trailing `<GroupBy:...>` token — with a leading `"//"`
collapsed to `"/"`; the first parameter `base` is unused by the source
(an earlier variant, left commented out, consulted it). -/
def groupObjectsByProperty (_base : String) (objects : List Dict) (prop : String)
    (groupIconFilename : String)
    (makeGroup : Option (String → String → Nat → Dict)) (pathStr : String) : List Dict :=
  (groupCounts objects prop).map (fun vc =>
    match makeGroup with
    | some mg => mg (pyStr vc.1) prop vc.2
    | none =>
      let id := stripLeadingDoubleSlash (pathStr ++ "/<Show:" ++ prop ++ ":" ++ pyStr vc.1 ++ ">")
      wpGroupToDict id (pyStr vc.1) groupIconFilename vc.2)

/-- The `{"objects": [...]}` payload shape returned by
`build_objects_for_path`. -/
structure ObjectsReply where
  objects : List Dict
deriving DecidableEq, Repr

/-- `tokens[i][0] == "GroupBy"` scan of lines 326-330: the last `GroupBy`
among the leading tokens, with its index. -/
def findLastGroupBy (front : List Tok) : Option (Nat × Tok) :=
  front.enum.foldl (fun acc jt => if jt.2.1 = "GroupBy" then some jt else acc) none

/-- An intermediate token acceptable to the pipeline: a `Show` with a
string property and a present value. -/
def isValidShowTok : Tok → Bool
  | (c, p, v) => c = "Show" ∧ p.isSome ∧ v.isSome

/-- The validation loop of lines 332-337: every leading token other than
the chosen `GroupBy` must be a valid `Show` filter. -/
def validFrontExceptGb (front : List Tok) (gbIdx : Nat) : Bool :=
  front.enum.all (fun jt => jt.1 = gbIdx ∨ isValidShowTok jt.2)

/-- The special-case filter application of lines 338-350: apply every
`Show` token (including the trailing one) in order, ignoring other
commands. -/
def applyAllShowFilters (objs : List Dict) (tokens : List Tok) : List Dict :=
  tokens.foldl (fun os t => if t.1 = "Show" then applyShowTok os t.2.1 t.2.2 else os) objs

/-- The general-case intermediate loop of lines 353-363: apply each leading
token as a `Show` filter, failing (empty result) on the first token that is
not a valid `Show`. -/
def applyIntermediateShows (objs : List Dict) : List Tok → Option (List Dict)
  | [] => some objs
  | (c, p, v) :: rest =>
    if c = "Show" then
      match p, v with
      | some ps, some vs => applyIntermediateShows (showFilter objs ps vs) rest
      | _, _ => none
    else none

/-- The special case of lines 320-350 of `build_objects_for_path`: when
the trailing token is a valid `Show:P:V` and the last `GroupBy` among the
leading tokens has the same property `P`, the `GroupBy` is ignored —
`some` of the result (all `Show` filters applied, or the empty listing
when another leading token is not a valid `Show`); `none` means fall
through to the general case. -/
def specialCaseResult (typedObjects : List Dict) (front : List Tok) (lastTok : Tok)
    (tokens : List Tok) : Option ObjectsReply :=
  match lastTok with
  | ("Show", some lastProp, some _) =>
    (match findLastGroupBy front with
    | some (gbIdx, (_, some gbProp, _)) =>
      if gbProp = lastProp then
        some (if validFrontExceptGb front gbIdx then
                ⟨applyAllShowFilters typedObjects tokens⟩
              else ⟨[]⟩)
      else none
    | _ => none)
  | _ => none

/-- The general case of lines 352-384 of `build_objects_for_path`: apply
the leading tokens as `Show` filters (empty on any other command), then
the trailing `GroupBy` (whitelist permitting) or `Show`; anything else is
empty. -/
def generalCaseResult (pathStr baseClean : String) (typedObjects : List Dict)
    (front : List Tok) (lastTok : Tok) (allowedGroupFields : Option (List String))
    (groupIconFilename : String)
    (makeGroup : Option (String → String → Nat → Dict)) : ObjectsReply :=
  match applyIntermediateShows typedObjects front with
  | none => ⟨[]⟩
  | some filtered =>
    match lastTok with
    | ("GroupBy", some p, _) =>
      (match allowedGroupFields with
      | some fields =>
        if p ∈ fields then
          ⟨groupObjectsByProperty baseClean filtered p groupIconFilename makeGroup pathStr⟩
        else ⟨[]⟩
      | none =>
        ⟨groupObjectsByProperty baseClean filtered p groupIconFilename makeGroup pathStr⟩)
    | ("Show", some p, some v) => ⟨showFilter filtered p v⟩
    | _ => ⟨[]⟩

/-- The token-evaluation body of `build_objects_for_path` (lines 271-384),
after parsing and normalization: the empty, single-token and multi-token
branches, including the `Show*`/`GroupBy:P`/`Show:P:V` drill-through
special case. -/
def evalTokens (pathStr : String) (baseClean : String) (tokens : List Tok)
    (listForBase : String → List Dict) (allowedGroupFields : Option (List String))
    (groupIconFilename : String)
    (makeGroup : Option (String → String → Nat → Dict)) : ObjectsReply :=
  match tokens with
  | [] => ⟨listForBase baseClean⟩
  | [(command, prop, value)] =>
    let typedObjects := listForBase baseClean
    (match command, prop, value with
    | "GroupBy", some p, _ =>
      (match allowedGroupFields with
      | some fields =>
        if p ∈ fields then
          ⟨groupObjectsByProperty baseClean typedObjects p groupIconFilename makeGroup pathStr⟩
        else ⟨[]⟩
      | none =>
        ⟨groupObjectsByProperty baseClean typedObjects p groupIconFilename makeGroup pathStr⟩)
    | "Show", some p, some v => ⟨showFilter typedObjects p v⟩
    | "Search", p, v =>
      let pv : String × String :=
        match v with
        | some vs =>
          (match splitFirstColon vs.data with
          | (a, some r) => (String.mk a, String.mk r)
          | (_, none) => (p.getD "all", vs))
        | none => (p.getD "all", "")
      ⟨typedObjects.filter (fun o => searchMatch o pv.1 pv.2)⟩
    | _, _, _ => ⟨[]⟩)
  | t1 :: t2 :: rest =>
    let tokens := t1 :: t2 :: rest
    let typedObjects := listForBase baseClean
    let front := tokens.dropLast
    let lastTok := tokens.getLastD ("", none, none)
    match specialCaseResult typedObjects front lastTok tokens with
    | some r => r
    | none =>
      generalCaseResult pathStr baseClean typedObjects front lastTok
        allowedGroupFields groupIconFilename makeGroup

/-- `ObjectProvider.build_objects_for_path` of `src/providers/base.py`
(lines 258-384): parse the command pipeline, normalize adjacent
`GroupBy`/`Show` pairs, then evaluate the tokens over the listing of the
base path. -/
def buildObjectsForPath (pathStr : String) (listForBase : String → List Dict)
    (allowedGroupFields : Option (List String)) (groupIconFilename : String)
    (makeGroup : Option (String → String → Nat → Dict)) : ObjectsReply :=
  let parsed := parseCommandPipeline pathStr
  let tokens := normalizeGroupbyShowTokens parsed.2
  let baseClean := if parsed.1 = "" then "/" else parsed.1
  evalTokens pathStr baseClean tokens listForBase allowedGroupFields groupIconFilename makeGroup

/-! ## Wire messages and request dispatch (`src/providers/base.py`) -/

/-- A parsed JSON value, as `json.loads` produces it (JSON `null` is
Python `None`). -/
inductive JVal where
  | jstr (s : String)
  | jnum (n : Int)
  | jbool (b : Bool)
  | jnull
  | jarr (elems : List JVal)
  | jobj (fields : List (String × JVal))

/-- `message.get(key)` on a parsed JSON object: `none` when the key is
absent (the stored value, which may be `jnull` = Python `None`,
otherwise). -/
def jGet (fields : List (String × JVal)) (key : String) : Option JVal :=
  match fields with
  | [] => none
  | (k, v) :: rest => if k = key then some v else jGet rest key

/-- `key in message`. -/
def jHasKey (fields : List (String × JVal)) (key : String) : Bool :=
  fields.any (fun kv => kv.1 = key)

/-- `message.get(k) == "<s>"`: only a stored string equal to `s` compares
equal (Python `None == str` and non-string `== str` are `False`). -/
def isStrVal (v : Option JVal) (s : String) : Bool :=
  match v with
  | some (.jstr t) => t = s
  | _ => false

/-- Python truthiness `bool(value)` on JSON values. -/
def jTruthy : JVal → Bool
  | .jstr s => ¬(s = "")
  | .jnum n => ¬(n = 0)
  | .jbool b => b
  | .jnull => false
  | .jarr l => ¬l.isEmpty
  | .jobj f => ¬f.isEmpty

/-- Python whitespace, for `str.strip()`. -/
def isPySpace (c : Char) : Bool :=
  c = ' ' ∨ c = '\t' ∨ c = '\n' ∨ c = '\r' ∨ c = Char.ofNat 11 ∨ c = Char.ofNat 12

/-- `s.strip()`. -/
def pyStrip (s : String) : String :=
  String.mk (((s.data.dropWhile isPySpace).reverse.dropWhile isPySpace).reverse)

/-- The discriminator keys accepted by the dispatcher (lines 43-49 of
`src/providers/base.py`). -/
def candidateKeys : List String := ["method", "message", "type", "command", "action"]

/-- `ObjectProvider.is_get_root_objects` (lines 38-55): a bare string
`"GetRootObjects"` (after strip), a dict carrying the name under a
candidate key, or a dict containing the literal key `"GetRootObjects"`
whose value is truthy or `None`. -/
def isGetRootObjects : JVal → Bool
  | .jstr s => pyStrip s = "GetRootObjects"
  | .jobj fields =>
    if candidateKeys.any (fun k => isStrVal (jGet fields k) "GetRootObjects") then true
    else if jHasKey fields "GetRootObjects" then
      match jGet fields "GetRootObjects" with
      | some .jnull => true
      | some v => jTruthy v
      | none => true
    else false
  | _ => false

/-- `ObjectProvider.is_get_info` (lines 57-74): same shape as
`is_get_root_objects`, for `"GetInfo"`. -/
def isGetInfo : JVal → Bool
  | .jstr s => pyStrip s = "GetInfo"
  | .jobj fields =>
    if candidateKeys.any (fun k => isStrVal (jGet fields k) "GetInfo") then true
    else if jHasKey fields "GetInfo" then
      match jGet fields "GetInfo" with
      | some .jnull => true
      | some v => jTruthy v
      | none => true
    else false
  | _ => false

/-- `ObjectProvider.is_get_objects` (lines 76-89): a candidate key holding
`"GetObjects"`, or the bare string `"GetObjects"`; no literal-key
fallback. -/
def isGetObjects : JVal → Bool
  | .jobj fields => candidateKeys.any (fun k => isStrVal (jGet fields k) "GetObjects")
  | .jstr s => pyStrip s = "GetObjects"
  | _ => false

/-- The id keys accepted by `extract_object_id` (line 94). -/
def idKeys : List String := ["id", "path", "object", "objectId", "ObjectId"]

/-- The key loop of `extract_object_id`: first accepted key whose value is
a string. -/
def extractFromKeys (fields : List (String × JVal)) : List String → Option String
  | [] => none
  | k :: ks =>
    match jGet fields k with
    | some (.jstr s) => some s
    | _ => extractFromKeys fields ks

/-- `ObjectProvider.extract_object_id` (lines 91-98). -/
def extractObjectId : JVal → Option String
  | .jobj fields => extractFromKeys fields idKeys
  | _ => none

/-- A provider instance as `handle_message` sees it: the `GetInfo` data and
the two abstract retrieval methods, which may raise (modelled with
`Except`). -/
structure Provider where
  rootName : String
  icons : List (String × String)
  getRootObjectsPayload : Except String (List Dict)
  getObjectsForPath : String → Except String (List Dict)

/-- The JSON payload written back on a response line: an objects listing,
a `GetInfo` reply, or an `{"error": ...}` object. -/
inductive Reply where
  | objects (objs : List Dict)
  | info (rootName : String) (icons : List (String × String))
  | error (msg : String)
deriving DecidableEq, Repr

/-- `ObjectProvider.handle_message` of `src/providers/base.py`
(lines 105-128): dispatch on the three recognized discriminators; catch
retrieval exceptions into `{"error": ...}`; `"Missing id"` when a
`GetObjects` message has no (or a falsy) id; `"Unknown message"`
otherwise. -/
def handleMessage (p : Provider) (incoming : JVal) : Reply :=
  if isGetRootObjects incoming then
    match p.getRootObjectsPayload with
    | .ok objs => .objects objs
    | .error e => .error ("Failed to serve objects: " ++ e)
  else if isGetInfo incoming then
    .info p.rootName p.icons
  else if isGetObjects incoming then
    match extractObjectId incoming with
    | none => .error "Missing id"
    | some objectId =>
      if objectId = "" then .error "Missing id"
      else
        match p.getObjectsForPath objectId with
        | .ok objs => .objects objs
        | .error e => .error ("Failed to list objects: " ++ e)
  else .error "Unknown message"

/-- `JsonLineHandler.handle` of `src/providers/base.py` (lines 143-157):
a line that fails to decode as JSON is answered with
`{"error": "Invalid JSON"}`; otherwise the decoded message is passed to
`handle_message` and the result is the single response line. -/
def handleLine (p : Provider) (parsed : Option JVal) : Reply :=
  match parsed with
  | none => .error "Invalid JSON"
  | some incoming => handleMessage p incoming

/-! ## Asynchronous search (`src/providers/Modules/provider.py`) -/

/-- Lookup in a Python dict keyed by native values (`==` / hash
equality). -/
def pyLookup {α : Type} (m : List (PyVal × α)) (k : PyVal) : Option α :=
  match m with
  | [] => none
  | (k0, v) :: rest => if pyEq k0 k then some v else pyLookup rest k

/-- Assignment `m[k] = v` in a Python dict keyed by native values: an
`==`-equal existing key keeps its first-seen identity and position; a new
key is appended. -/
def pySet {α : Type} (m : List (PyVal × α)) (k : PyVal) (v : α) : List (PyVal × α) :=
  match m with
  | [] => [(k, v)]
  | (k0, v0) :: rest => if pyEq k0 k then (k0, v) :: rest else (k0, v0) :: pySet rest k v

/-- `key in m` for a Python dict keyed by native values. -/
def dictHasKey (d : Dict) (key : String) : Bool :=
  d.any (fun kv => kv.1 = key)

/-- The two search stores of `ModulesProvider` (lines 73-74):
`_search_results` and `_search_status` (status values are `"running"` or
`"done"`). -/
structure SearchState where
  searchResults : List (PyVal × List Dict)
  searchStatus : List (PyVal × String)
deriving DecidableEq, Repr

/-- `f"./resources/{ICON_PATH.name}"` with `ICON_PATH` ending in
`Box.png`. -/
def iconBoxName : String := "./resources/Box.png"

/-- A single-quote string, built from its code point. -/
def apos : String := String.mk [Char.ofNat 39]

/-- `f"Searching for '{search_input}'..."`. -/
def searchingTitle (searchInput : String) : String :=
  "Searching for " ++ apos ++ searchInput ++ apos ++ "..."

/-- `f"Search for '{search_input}' completed"`. -/
def completedTitle (searchInput : String) : String :=
  "Search for " ++ apos ++ searchInput ++ apos ++ " completed"

/-- `WPLmodSearchHandle(...).to_dict()`
(`src/providers/Modules/search_objects.py`, lines 6-23): the core
quintuple then the extras `search_string` and `recursive`.  The `id` field
receives the raw `search_id` value. -/
def wplmodSearchHandleToDict (id : PyVal) (title searchString : String)
    (recursive : Bool) (icon : String) (objects : Int) : Dict :=
  [("class", .vstr "WPLmodSearchHandle"), ("id", id), ("title", .vstr title),
   ("icon", .vstr icon), ("objects", .vint objects),
   ("search_string", .vstr searchString), ("recursive", .vbool recursive)]

/-- `WPLmodSearchProgress(...).to_dict()`
(`src/providers/Modules/search_objects.py`, lines 25-38): the core
quintuple then the extra `state`. -/
def wplmodSearchProgressToDict (id title state icon : String) (objects : Int) : Dict :=
  [("class", .vstr "WPLmodSearchProgress"), ("id", .vstr id), ("title", .vstr title),
   ("icon", .vstr icon), ("objects", .vint objects), ("state", .vstr state)]

/-- The search-id selection of `ModulesProvider.search` (lines 84-89): the
raw `search_handle["id"]` when the handle is a truthy dict containing the
key `"id"`, else the freshly generated UUID (modelled as the explicit
`freshUuid` argument, `uuid.uuid4()` being nondeterministic). -/
def searchIdOf (freshUuid : String) (searchHandle : Option Dict) : PyVal :=
  match searchHandle with
  | some h => if ¬h.isEmpty ∧ dictHasKey h "id" then dictGet h "id" else .vstr freshUuid
  | none => .vstr freshUuid

/-- Result of one synchronous `ModulesProvider.search` call: the returned
object list, the updated stores, and whether a background
`_run_module_spider` thread was spawned. -/
structure SearchCallResult where
  reply : List Dict
  state : SearchState
  spawned : Bool
deriving DecidableEq, Repr

/-- `ModulesProvider.search` of `src/providers/Modules/provider.py`
(lines 76-153), as a state transformer over the two stores.  The
already-done early return indexes `_search_results[search_id]` directly;
the model reads it with a `[]` default, which agrees with the source
whenever status `"done"` implies stored results (the only way the source
reaches that branch without raising `KeyError`). -/
def modulesSearch (freshUuid : String) (st : SearchState) (searchInput : String)
    (recursive : Bool) (searchHandle : Option Dict) : SearchCallResult :=
  let searchId := searchIdOf freshUuid searchHandle
  if pyLookup st.searchStatus searchId = some "done" then
    let results := (pyLookup st.searchResults searchId).getD []
    { reply := wplmodSearchProgressToDict ("/search_progress/" ++ pyStr searchId)
        (completedTitle searchInput) "done" iconBoxName results.length :: results,
      state := st, spawned := false }
  else
    let needStart :=
      match pyLookup st.searchStatus searchId with
      | none => true
      | some s => ¬(s = "running")
    let st1 :=
      if needStart then
        { searchResults := pySet st.searchResults searchId [],
          searchStatus := pySet st.searchStatus searchId "running" }
      else st
    let handleTruthy : Bool :=
      match searchHandle with
      | some h => ¬h.isEmpty
      | none => false
    if !handleTruthy then
      { reply := [wplmodSearchHandleToDict searchId (searchingTitle searchInput)
          searchInput recursive iconBoxName 0],
        state := st1, spawned := needStart }
    else if pyLookup st1.searchStatus searchId = some "running" then
      { reply := [wplmodSearchProgressToDict ("/search_progress/" ++ pyStr searchId)
          (searchingTitle searchInput) "ongoing" iconBoxName 0],
        state := st1, spawned := needStart }
    else
      let results := (pyLookup st1.searchResults searchId).getD []
      { reply := wplmodSearchProgressToDict ("/search_progress/" ++ pyStr searchId)
          (completedTitle searchInput) "done" iconBoxName results.length :: results,
        state := st1, spawned := needStart }

/-- The completion stores of the background worker `_run_module_spider`
(lines 188-189 / 195-196): record the parsed results and mark the search
done. -/
def finishSearch (st : SearchState) (searchId : PyVal) (found : List Dict) : SearchState :=
  { searchResults := pySet st.searchResults searchId found,
    searchStatus := pySet st.searchStatus searchId "done" }

/-! ## Browser typed reconstruction (`src/browsers/PythonQT5/browser.py`) -/

/-- A parsed JSON object held by the browser. -/
abbrev BDict := List (String × JVal)

/-- `obj.get(key)` on a browser-side dict. -/
def bGet (d : BDict) (key : String) : Option JVal :=
  match d with
  | [] => none
  | (k, v) :: rest => if k = key then some v else bGet rest key

/-- An element of the list `_to_typed_objects` builds: either the raw
incoming dict kept as-is (`typed.append(obj)`), or a reconstructed model
class instance, represented by its `to_dict()` serialization. -/
inductive BrowserObj where
  | raw (d : BDict)
  | typed (ser : BDict)

/-- The shared model classes the browser imports at lines 44-74 of
`src/browsers/PythonQT5/browser.py`.  The import block is a single
`try`/`except`; it imports `WPSlurmJobGroup` from `providers.Slurm.model`,
but `src/providers/Slurm/model.py` defines only `WPSlurmPartition` and
`WPSlurmJob`, so the import raises and the `except` arm sets every model
class name to `None`.  Each registry entry is therefore `none`, exactly as
each `X is not None` guard of `_to_typed_objects` sees it. -/
def wpSlurmPartitionCtor : Option (BDict → BrowserObj) := none

/-- `WPSlurmJob` as seen by `_to_typed_objects`: `None` (see
`wpSlurmPartitionCtor`). -/
def wpSlurmJobCtor : Option (BDict → BrowserObj) := none

/-- `WPSlurmJobGroup` as seen by `_to_typed_objects`: `None` — it is not
defined anywhere in the repository. -/
def wpSlurmJobGroupCtor : Option (BDict → BrowserObj) := none

/-- `WPDirectory` as seen by `_to_typed_objects`: `None` (see
`wpSlurmPartitionCtor`). -/
def wpDirectoryCtor : Option (BDict → BrowserObj) := none

/-- `WPFile` as seen by `_to_typed_objects`: `None`. -/
def wpFileCtor : Option (BDict → BrowserObj) := none

/-- `WPLmodDependency` as seen by `_to_typed_objects`: `None`. -/
def wpLmodDependencyCtor : Option (BDict → BrowserObj) := none

/-- `WPLmodSoftware` as seen by `_to_typed_objects`: `None`. -/
def wpLmodSoftwareCtor : Option (BDict → BrowserObj) := none

/-- `WPGroup` as seen by `_to_typed_objects`: `None`. -/
def wpGroupCtor : Option (BDict → BrowserObj) := none

/-- `RCIU_WPObject` as seen by `_to_typed_objects`: `None`. -/
def rciuWPObjectCtor : Option (BDict → BrowserObj) := none

/-- The class registry consulted by the `elif` chain of
`_to_typed_objects` (lines 1424-1505): the constructor for a recognized
class name, when that class was imported. -/
def classRegistryCtor (clsName : String) : Option (BDict → BrowserObj) :=
  if clsName = "WPSlurmPartition" then wpSlurmPartitionCtor
  else if clsName = "WPSlurmJob" then wpSlurmJobCtor
  else if clsName = "WPSlurmJobGroup" then wpSlurmJobGroupCtor
  else if clsName = "WPDirectory" then wpDirectoryCtor
  else if clsName = "WPFile" then wpFileCtor
  else if clsName = "WPLmodDependency" then wpLmodDependencyCtor
  else if clsName = "WPLmodSoftware" then wpLmodSoftwareCtor
  else if clsName = "WPGroup" then wpGroupCtor
  else if clsName = "WPObject" then rciuWPObjectCtor
  else none

/-- One iteration of `_to_typed_objects` (lines 1419-1509): non-dict
entries are skipped; a dict whose class has a loaded constructor is
rebuilt through it; every other dict — unknown class, non-string class, or
no constructor loaded — is appended unchanged (the `else` arm). -/
def toTypedOne (obj : JVal) : Option BrowserObj :=
  match obj with
  | .jobj d =>
    some
      (match bGet d "class" with
      | some (.jstr clsName) =>
        (match classRegistryCtor clsName with
        | some ctor => ctor d
        | none => .raw d)
      | _ => .raw d)
  | _ => none

/-- `_to_typed_objects` of `src/browsers/PythonQT5/browser.py`
(lines 1416-1510). -/
def toTypedObjects (rawObjects : List JVal) : List BrowserObj :=
  rawObjects.filterMap toTypedOne

/-- `_obj_to_dict` of `src/browsers/PythonQT5/browser.py`
(lines 1513-1523): an object exposing `to_dict()` is serialized through
it; a plain dict is returned as-is. -/
def objToDict : BrowserObj → BDict
  | .raw d => d
  | .typed ser => ser

/-! ## Claim theorems -/

/-- A provider whose retrieval methods succeed with empty listings. -/
def witnessProviderOk : Provider :=
  { rootName := "Root", icons := [],
    getRootObjectsPayload := .ok [],
    getObjectsForPath := fun _ => .ok [] }

/-- A provider whose root retrieval raises. -/
def witnessProviderErr : Provider :=
  { rootName := "Root", icons := [],
    getRootObjectsPayload := .error "boom",
    getObjectsForPath := fun _ => .ok [] }

/-- C8: every request line is answered with exactly one JSON object: an
undecodable line with `{"error": "Invalid JSON"}`; a decoded message with
no recognized discriminator with `{"error": "Unknown message"}`; a
`GetObjects` message with no id under any accepted key with the error
object `{"error": "Missing id"}`; a raising root retrieval with
`{"error": "Failed to serve objects: ..."}` on the same line; and every
input produces an objects, info or error reply — `handle_message` never
escapes without a dict. -/
theorem wire_error_contract (p : Provider) :
    handleLine p none = Reply.error "Invalid JSON" ∧
    (∀ m : JVal, isGetRootObjects m = false → isGetInfo m = false →
      isGetObjects m = false →
      handleLine p (some m) = Reply.error "Unknown message") ∧
    (∀ m : JVal, isGetRootObjects m = false → isGetInfo m = false →
      isGetObjects m = true → extractObjectId m = none →
      handleLine p (some m) = Reply.error "Missing id") ∧
    (∀ m : JVal, isGetRootObjects m = true → ∀ e : String,
      p.getRootObjectsPayload = .error e →
      handleLine p (some m) = Reply.error ("Failed to serve objects: " ++ e)) ∧
    (∀ parsed : Option JVal,
      (∃ objs, handleLine p parsed = Reply.objects objs) ∨
      handleLine p parsed = Reply.info p.rootName p.icons ∨
      (∃ msg, handleLine p parsed = Reply.error msg)) := by
  refine ⟨rfl, ?_, ?_, ?_, ?_⟩
  · intro m h1 h2 h3
    simp [handleLine, handleMessage, h1, h2, h3]
  · intro m h1 h2 h3 h4
    simp [handleLine, handleMessage, h1, h2, h3, h4]
  · intro m h1 e he
    simp [handleLine, handleMessage, h1, he]
  · intro parsed
    match parsed with
    | none => exact Or.inr (Or.inr ⟨"Invalid JSON", rfl⟩)
    | some m =>
      by_cases h1 : isGetRootObjects m = true
      · cases hp : p.getRootObjectsPayload with
        | ok objs => exact Or.inl ⟨objs, by simp [handleLine, handleMessage, h1, hp]⟩
        | error e =>
          exact Or.inr (Or.inr ⟨"Failed to serve objects: " ++ e, by
            simp [handleLine, handleMessage, h1, hp]⟩)
      · by_cases h2 : isGetInfo m = true
        · exact Or.inr (Or.inl (by simp [handleLine, handleMessage, h1, h2]))
        · by_cases h3 : isGetObjects m = true
          · cases hx : extractObjectId m with
            | none =>
              exact Or.inr (Or.inr ⟨"Missing id", by
                simp [handleLine, handleMessage, h1, h2, h3, hx]⟩)
            | some oid =>
              by_cases hoid : oid = ""
              · exact Or.inr (Or.inr ⟨"Missing id", by
                  simp [handleLine, handleMessage, h1, h2, h3, hx, hoid]⟩)
              · cases hg : p.getObjectsForPath oid with
                | ok objs =>
                  exact Or.inl ⟨objs, by
                    simp [handleLine, handleMessage, h1, h2, h3, hx, hoid, hg]⟩
                | error e =>
                  exact Or.inr (Or.inr ⟨"Failed to list objects: " ++ e, by
                    simp [handleLine, handleMessage, h1, h2, h3, hx, hoid, hg]⟩)
          · exact Or.inr (Or.inr ⟨"Unknown message", by
              simp [handleLine, handleMessage, h1, h2, h3]⟩)

/-- Witness for C8 at concrete inputs. -/
theorem wire_error_contract_witness :
    handleLine witnessProviderOk (some (.jobj [("method", .jstr "Frobnicate")])) =
      Reply.error "Unknown message" ∧
    handleLine witnessProviderOk (some (.jobj [("method", .jstr "GetObjects")])) =
      Reply.error "Missing id" ∧
    handleLine witnessProviderErr (some (.jstr "GetRootObjects")) =
      Reply.error ("Failed to serve objects: " ++ "boom") :=
  ⟨(wire_error_contract witnessProviderOk).2.1 _ (by decide) (by decide) (by decide),
   (wire_error_contract witnessProviderOk).2.2.1 _ (by decide) (by decide) (by decide)
     (by decide),
   (wire_error_contract witnessProviderErr).2.2.2.1 _ (by decide) "boom" rfl⟩

/-- C10: beyond the five discriminator keys, `handle_message` also
recognizes a request whose entire body is the bare JSON string `"GetInfo"`,
`"GetRootObjects"` or `"GetObjects"` (after stripping surrounding
whitespace) and, for `GetInfo` and `GetRootObjects`, a dict merely
containing the method name as a literal key with a truthy or `None` value,
dispatching each to the same handler as the documented
`{"method": ...}` form (the bare-string `GetObjects` reaches the
`GetObjects` branch, which then reports `"Missing id"` since a string
carries no id). -/
theorem bare_string_and_literal_key_dispatch (p : Provider) :
    (∀ s : String, pyStrip s = "GetInfo" →
      handleMessage p (.jstr s) = handleMessage p (.jobj [("method", .jstr "GetInfo")])) ∧
    (∀ s : String, pyStrip s = "GetRootObjects" →
      handleMessage p (.jstr s) =
        handleMessage p (.jobj [("method", .jstr "GetRootObjects")])) ∧
    (∀ s : String, pyStrip s = "GetObjects" →
      isGetObjects (.jstr s) = true ∧
      handleMessage p (.jstr s) = Reply.error "Missing id") ∧
    (∀ v : JVal, jTruthy v = true ∨ v = .jnull →
      handleMessage p (.jobj [("GetRootObjects", v)]) =
        handleMessage p (.jobj [("method", .jstr "GetRootObjects")])) ∧
    (∀ v : JVal, jTruthy v = true ∨ v = .jnull →
      handleMessage p (.jobj [("GetInfo", v)]) =
        handleMessage p (.jobj [("method", .jstr "GetInfo")])) := by
  have eGI1 : isGetRootObjects (.jobj [("method", .jstr "GetInfo")]) = false := by decide
  have eGI2 : isGetInfo (.jobj [("method", .jstr "GetInfo")]) = true := by decide
  have eGR1 : isGetRootObjects (.jobj [("method", .jstr "GetRootObjects")]) = true := by
    decide
  refine ⟨?_, ?_, ?_, ?_, ?_⟩
  · intro s hs
    have l1 : isGetRootObjects (.jstr s) = false := by simp [isGetRootObjects, hs]
    have l2 : isGetInfo (.jstr s) = true := by simp [isGetInfo, hs]
    simp [handleMessage, l1, l2, eGI1, eGI2]
  · intro s hs
    have l1 : isGetRootObjects (.jstr s) = true := by simp [isGetRootObjects, hs]
    simp [handleMessage, l1, eGR1]
  · intro s hs
    have l1 : isGetRootObjects (.jstr s) = false := by simp [isGetRootObjects, hs]
    have l2 : isGetInfo (.jstr s) = false := by simp [isGetInfo, hs]
    have l3 : isGetObjects (.jstr s) = true := by simp [isGetObjects, hs]
    exact ⟨l3, by simp [handleMessage, l1, l2, l3, extractObjectId]⟩
  · intro v hv
    have l1 : isGetRootObjects (.jobj [("GetRootObjects", v)]) = true := by
      rcases hv with hv | hv
      · simp [isGetRootObjects, candidateKeys, jGet, jHasKey, isStrVal]
        cases v <;> simp_all [jTruthy]
      · subst hv
        decide
    simp [handleMessage, l1, eGR1]
  · intro v hv
    have l1 : isGetRootObjects (.jobj [("GetInfo", v)]) = false := by
      simp [isGetRootObjects, candidateKeys, jGet, jHasKey, isStrVal]
    have l2 : isGetInfo (.jobj [("GetInfo", v)]) = true := by
      rcases hv with hv | hv
      · simp [isGetInfo, candidateKeys, jGet, jHasKey, isStrVal]
        cases v <;> simp_all [jTruthy]
      · subst hv
        decide
    simp [handleMessage, l1, l2, eGI1, eGI2]

/-- Witness for C10 at concrete inputs. -/
theorem bare_string_and_literal_key_dispatch_witness :
    handleMessage witnessProviderOk (.jstr " GetInfo ") =
      handleMessage witnessProviderOk (.jobj [("method", .jstr "GetInfo")]) ∧
    handleMessage witnessProviderOk (.jstr "GetRootObjects") =
      handleMessage witnessProviderOk (.jobj [("method", .jstr "GetRootObjects")]) ∧
    handleMessage witnessProviderOk (.jstr "GetObjects") = Reply.error "Missing id" ∧
    handleMessage witnessProviderOk (.jobj [("GetRootObjects", .jbool true)]) =
      handleMessage witnessProviderOk (.jobj [("method", .jstr "GetRootObjects")]) ∧
    handleMessage witnessProviderOk (.jobj [("GetInfo", .jnull)]) =
      handleMessage witnessProviderOk (.jobj [("method", .jstr "GetInfo")]) :=
  ⟨(bare_string_and_literal_key_dispatch witnessProviderOk).1 " GetInfo " (by decide),
   (bare_string_and_literal_key_dispatch witnessProviderOk).2.1 "GetRootObjects" (by decide),
   ((bare_string_and_literal_key_dispatch witnessProviderOk).2.2.1 "GetObjects" (by decide)).2,
   (bare_string_and_literal_key_dispatch witnessProviderOk).2.2.2.1 (.jbool true)
     (Or.inl (by decide)),
   (bare_string_and_literal_key_dispatch witnessProviderOk).2.2.2.2 .jnull (Or.inr rfl)⟩

/-- The wire request of the async search sub-protocol, as
`src/test_search.py` sends it:
`{"method": "Search", "id": "/", "search": "python", "recursive": true}`. -/
def searchWireMessage : JVal :=
  .jobj [("method", .jstr "Search"), ("id", .jstr "/"),
         ("search", .jstr "python"), ("recursive", .jbool true)]

/-- C1: the dispatcher `handle_message` recognizes only `GetRootObjects`,
`GetInfo` and `GetObjects`, so a wire request carrying the discriminator
`Search` is answered with the error object `{"error": "Unknown message"}`
for every provider — `ModulesProvider.search`, which would return exactly
one `WPLmodSearchHandle` (second conjunct), is never reached from the
wire. -/
theorem search_wire_request_divergence (p : Provider) :
    handleMessage p searchWireMessage = Reply.error "Unknown message" ∧
    (modulesSearch "H" ⟨[], []⟩ "python" true none).reply =
      [wplmodSearchHandleToDict (.vstr "H") (searchingTitle "python") "python" true
        iconBoxName 0] := by
  have h1 : isGetRootObjects searchWireMessage = false := by decide
  have h2 : isGetInfo searchWireMessage = false := by decide
  have h3 : isGetObjects searchWireMessage = false := by decide
  exact ⟨by simp [handleMessage, h1, h2, h3], by decide⟩

/-- The wire example of §8 scenario 5: an object of a class the browser
does not know, with an extra field `bar = 42`. -/
def wpFooDict : BDict :=
  [("class", .jstr "WPFoo"), ("id", .jstr "/x"), ("title", .jstr "X"),
   ("icon", .jnull), ("objects", .jnum 0), ("bar", .jnum 42)]

/-- C9: reconstruction followed by serialization is the identity on every
object dict — in the source as it stands the model-class import of
`browser.py` (lines 44-74) fails because `WPSlurmJobGroup` does not exist
in `providers.Slurm.model`, so every registry guard `X is not None` is
false and each dict is appended unchanged, then `_obj_to_dict` returns it
as-is; in particular the unknown class `WPFoo` keeps `bar = 42`. -/
theorem typed_roundtrip_preserves_extras :
    (∀ d : BDict, (toTypedOne (.jobj d)).map objToDict = some d) ∧
    toTypedObjects [.jobj wpFooDict] = [BrowserObj.raw wpFooDict] ∧
    bGet (objToDict (BrowserObj.raw wpFooDict)) "bar" = some (.jnum 42) := by
  have hreg : ∀ c, classRegistryCtor c = none := by
    intro c
    simp [classRegistryCtor, wpSlurmPartitionCtor, wpSlurmJobCtor, wpSlurmJobGroupCtor,
      wpDirectoryCtor, wpFileCtor, wpLmodDependencyCtor, wpLmodSoftwareCtor, wpGroupCtor,
      rciuWPObjectCtor]
  refine ⟨?_, ?_, rfl⟩
  · intro d
    simp only [toTypedOne]
    cases hb : bGet d "class" with
    | none => simp [objToDict]
    | some v =>
      cases v with
      | jstr c => simp [hreg c, objToDict]
      | jnum n => simp [objToDict]
      | jbool b => simp [objToDict]
      | jnull => simp [objToDict]
      | jarr l => simp [objToDict]
      | jobj f => simp [objToDict]
  · show List.filterMap toTypedOne [.jobj wpFooDict] = [BrowserObj.raw wpFooDict]
    simp only [List.filterMap]
    have : toTypedOne (.jobj wpFooDict) = some (BrowserObj.raw wpFooDict) := by
      simp only [toTypedOne]
      have hb : bGet wpFooDict "class" = some (.jstr "WPFoo") := rfl
      simp [hb, hreg]
    simp [this]

theorem pyEq_refl (v : PyVal) : pyEq v v = true := by
  cases v <;> simp [pyEq]

theorem pyLookup_pySet_self {α : Type} (m : List (PyVal × α)) (k : PyVal) (v : α) :
    pyLookup (pySet m k v) k = some v := by
  induction m with
  | nil => simp [pySet, pyLookup, pyEq_refl]
  | cons kv rest ih =>
    obtain ⟨k0, v0⟩ := kv
    by_cases h : pyEq k0 k = true
    · simp [pySet, pyLookup, h]
    · simp [pySet, pyLookup, h, ih]

theorem pyLookup_mem {α : Type} {m : List (PyVal × α)} {k : PyVal} {v : α}
    (h : pyLookup m k = some v) : ∃ k0, (k0, v) ∈ m := by
  induction m with
  | nil => simp [pyLookup] at h
  | cons kv rest ih =>
    obtain ⟨k0, v0⟩ := kv
    by_cases he : pyEq k0 k = true
    · simp [pyLookup, he] at h
      exact ⟨k0, by simp [h]⟩
    · simp only [pyLookup, he, if_false, Bool.false_eq_true] at h
      obtain ⟨k1, hk1⟩ := ih h
      exact ⟨k1, List.mem_cons_of_mem _ hk1⟩

theorem pySet_mem {α : Type} {m : List (PyVal × α)} {k : PyVal} {v : α} {k0 : PyVal}
    {w : α} (h : (k0, w) ∈ pySet m k v) : w = v ∨ (k0, w) ∈ m := by
  induction m with
  | nil =>
    simp [pySet] at h
    exact Or.inl h.2
  | cons kv rest ih =>
    obtain ⟨k1, v1⟩ := kv
    by_cases he : pyEq k1 k = true
    · simp only [pySet, he, if_true] at h
      rcases List.mem_cons.mp h with h | h
      · exact Or.inl (congrArg Prod.snd h)
      · exact Or.inr (List.mem_cons_of_mem _ h)
    · simp only [pySet, he, Bool.false_eq_true, if_false] at h
      rcases List.mem_cons.mp h with h | h
      · exact Or.inr (by simp [h])
      · rcases ih h with h | h
        · exact Or.inl h
        · exact Or.inr (List.mem_cons_of_mem _ h)

theorem dictGet_progress_class (i t s ic : String) (n : Int) :
    dictGet (wplmodSearchProgressToDict i t s ic n) "class" =
      .vstr "WPLmodSearchProgress" := rfl

theorem dictGet_progress_id (i t s ic : String) (n : Int) :
    dictGet (wplmodSearchProgressToDict i t s ic n) "id" = .vstr i := rfl

theorem dictGet_handle_class (id : PyVal) (t ss : String) (rec : Bool) (ic : String)
    (n : Int) :
    dictGet (wplmodSearchHandleToDict id t ss rec ic n) "class" =
      .vstr "WPLmodSearchHandle" := rfl

theorem dictGet_handle_id (id : PyVal) (t ss : String) (rec : Bool) (ic : String)
    (n : Int) :
    dictGet (wplmodSearchHandleToDict id t ss rec ic n) "id" = id := rfl

/-- C6 counterexample: a polling call whose `search_handle` carries the id
`"deadbeef"` that the provider never issued is answered with a single
`WPLmodSearchProgress` (state `ongoing`), not with an empty objects
list. -/
theorem unknown_handle_counterexample :
    (modulesSearch "f0" ⟨[], []⟩ "mpi" true (some [("id", .vstr "deadbeef")])).reply =
      [wplmodSearchProgressToDict "/search_progress/deadbeef" (searchingTitle "mpi")
        "ongoing" iconBoxName 0] ∧
    (modulesSearch "f0" ⟨[], []⟩ "mpi" true (some [("id", .vstr "deadbeef")])).reply ≠
      [] := by decide

/-- C6 (amended): a polling `search` call whose handle id `H` is absent
from the status store registers `H` as a new running search (a worker
thread is spawned, both stores gain an entry for `H`) and replies with a
single ongoing `WPLmodSearchProgress` — not with an empty objects list. -/
theorem unknown_handle_restarts_search (st : SearchState) (input H fresh : String)
    (rec : Bool) (h : Dict) (hne : h.isEmpty = false)
    (hkey : dictHasKey h "id" = true) (hid : dictGet h "id" = .vstr H)
    (hunk : pyLookup st.searchStatus (.vstr H) = none) :
    modulesSearch fresh st input rec (some h) =
      { reply := [wplmodSearchProgressToDict ("/search_progress/" ++ H)
          (searchingTitle input) "ongoing" iconBoxName 0],
        state := { searchResults := pySet st.searchResults (.vstr H) [],
                   searchStatus := pySet st.searchStatus (.vstr H) "running" },
        spawned := true } := by
  have hsid : searchIdOf fresh (some h) = .vstr H := by
    simp [searchIdOf, hne, hkey, hid]
  simp [modulesSearch, hsid, hunk, hne, pyLookup_pySet_self, pyStr]

/-- Witness for C6 (amended) at a concrete state. -/
theorem unknown_handle_restarts_search_witness :
    modulesSearch "f1" ⟨[], [(.vstr "other", "done")]⟩ "mpi" false
        (some [("id", .vstr "ghost")]) =
      { reply := [wplmodSearchProgressToDict ("/search_progress/" ++ "ghost")
          (searchingTitle "mpi") "ongoing" iconBoxName 0],
        state := { searchResults := pySet [] (.vstr "ghost") [],
                   searchStatus := pySet [(.vstr "other", "done")] (.vstr "ghost")
                     "running" },
        spawned := true } :=
  unknown_handle_restarts_search ⟨[], [(.vstr "other", "done")]⟩ "mpi" "ghost" "f1"
    false [("id", .vstr "ghost")] (by decide) (by decide) (by decide) (by decide)

theorem modulesSearch_reply_not_done (fresh : String) (st : SearchState) (input : String)
    (rec : Bool) (handle : Option Dict)
    (hdone : ¬pyLookup st.searchStatus (searchIdOf fresh handle) = some "done") :
    (modulesSearch fresh st input rec handle).reply =
      [wplmodSearchHandleToDict (searchIdOf fresh handle) (searchingTitle input) input
        rec iconBoxName 0] ∨
    (modulesSearch fresh st input rec handle).reply =
      [wplmodSearchProgressToDict
        ("/search_progress/" ++ pyStr (searchIdOf fresh handle))
        (searchingTitle input) "ongoing" iconBoxName 0] := by
  rcases hstat : pyLookup st.searchStatus (searchIdOf fresh handle) with _ | s
  · rcases handle with _ | h
    · left
      simp [modulesSearch, hstat, pyLookup_pySet_self]
    · by_cases hh : h.isEmpty = true
      · left
        simp [modulesSearch, hstat, hh, pyLookup_pySet_self]
      · right
        simp [modulesSearch, hstat, hh, pyLookup_pySet_self]
  · have hs' : ¬(s = "done") := by
      intro h
      subst h
      exact hdone hstat
    by_cases hsr : s = "running"
    · subst hsr
      rcases handle with _ | h
      · left
        simp [modulesSearch, hstat]
      · by_cases hh : h.isEmpty = true
        · left
          simp [modulesSearch, hstat, hh]
        · right
          simp [modulesSearch, hstat, hh]
    · rcases handle with _ | h
      · left
        simp [modulesSearch, hstat, hs', hsr, pyLookup_pySet_self]
      · by_cases hh : h.isEmpty = true
        · left
          simp [modulesSearch, hstat, hh, hs', hsr, pyLookup_pySet_self]
        · right
          simp [modulesSearch, hstat, hh, hs', hsr, pyLookup_pySet_self]

/-- C7 counterexample: the initial call issues a `WPLmodSearchHandle` whose
id is the bare UUID `"u1"`, while the companion `WPLmodSearchProgress` of
the very next poll carries the id `"/search_progress/u1"` — the two id
fields are not the same. -/
theorem handle_progress_id_counterexample :
    dictGet ((modulesSearch "u1" ⟨[], []⟩ "python" true none).reply.headD []) "id" =
      .vstr "u1" ∧
    dictGet ((modulesSearch "u2" (modulesSearch "u1" ⟨[], []⟩ "python" true none).state
        "python" true (some [("id", .vstr "u1")])).reply.headD []) "id" =
      .vstr "/search_progress/u1" ∧
    (PyVal.vstr "/search_progress/u1") ≠ .vstr "u1" := by decide

/-- C7 (amended): every `WPLmodSearchProgress` a `search` call returns
carries the id `"/search_progress/" ++ H` where `H` is the call's search
id, and the `WPLmodSearchHandle` of an initial call carries `H` itself:
the progress id embeds the handle id as its suffix rather than equalling
it.  (The stored-results hypothesis reflects what `_run_module_spider`
stores: only `WPLmodSoftware` serializations.) -/
theorem progress_id_embeds_handle_id (fresh : String) (st : SearchState) (input : String)
    (rec : Bool) (handle : Option Dict)
    (hres : ∀ kv ∈ st.searchResults, ∀ d ∈ kv.2,
      dictGet d "class" = .vstr "WPLmodSoftware") :
    (∀ d ∈ (modulesSearch fresh st input rec handle).reply,
      dictGet d "class" = .vstr "WPLmodSearchProgress" →
      dictGet d "id" = .vstr ("/search_progress/" ++ pyStr (searchIdOf fresh handle))) ∧
    (∀ d ∈ (modulesSearch fresh st input rec handle).reply,
      dictGet d "class" = .vstr "WPLmodSearchHandle" →
      dictGet d "id" = searchIdOf fresh handle) := by
  by_cases hdone : pyLookup st.searchStatus (searchIdOf fresh handle) = some "done"
  · have hreply : (modulesSearch fresh st input rec handle).reply =
        wplmodSearchProgressToDict
          ("/search_progress/" ++ pyStr (searchIdOf fresh handle))
          (completedTitle input) "done" iconBoxName
          ((pyLookup st.searchResults (searchIdOf fresh handle)).getD []).length ::
        (pyLookup st.searchResults (searchIdOf fresh handle)).getD [] := by
      simp [modulesSearch, hdone]
    have hsoft : ∀ d ∈ (pyLookup st.searchResults (searchIdOf fresh handle)).getD [],
        dictGet d "class" = .vstr "WPLmodSoftware" := by
      cases hr : pyLookup st.searchResults (searchIdOf fresh handle) with
      | none => simp
      | some res =>
        obtain ⟨k0, hk0⟩ := pyLookup_mem hr
        simpa using hres (k0, res) hk0
    constructor
    · intro d hd _
      rw [hreply] at hd
      rcases List.mem_cons.mp hd with hd | hd
      · subst hd
        exact dictGet_progress_id _ _ _ _ _
      · rename_i hcls
        rw [hsoft d hd] at hcls
        simp at hcls
    · intro d hd hcls
      rw [hreply] at hd
      rcases List.mem_cons.mp hd with hd | hd
      · subst hd
        rw [dictGet_progress_class] at hcls
        simp at hcls
      · rw [hsoft d hd] at hcls
        simp at hcls
  · rcases modulesSearch_reply_not_done fresh st input rec handle hdone with hr | hr
    · constructor
      · intro d hd hcls
        rw [hr] at hd
        rcases List.mem_cons.mp hd with hd | hd
        · subst hd
          rw [dictGet_handle_class] at hcls
          simp at hcls
        · simp at hd
      · intro d hd _
        rw [hr] at hd
        rcases List.mem_cons.mp hd with hd | hd
        · subst hd
          exact dictGet_handle_id _ _ _ _ _ _
        · simp at hd
    · constructor
      · intro d hd _
        rw [hr] at hd
        rcases List.mem_cons.mp hd with hd | hd
        · subst hd
          exact dictGet_progress_id _ _ _ _ _
        · simp at hd
      · intro d hd hcls
        rw [hr] at hd
        rcases List.mem_cons.mp hd with hd | hd
        · subst hd
          rw [dictGet_progress_class] at hcls
          simp at hcls
        · simp at hd

/-- A search store holding one completed search `u1` with a single
`WPLmodSoftware` result. -/
def doneSearchState : SearchState :=
  ⟨[(.vstr "u1", [[("class", .vstr "WPLmodSoftware"), ("id", .vstr "/search/m1"),
    ("title", .vstr "m1"), ("icon", .vnone), ("objects", .vint 0)]])],
   [(.vstr "u1", "done")]⟩

/-- Witness for C7 (amended): a completed search polled with its handle —
the progress object heading the reply carries the prefixed id. -/
theorem progress_id_embeds_handle_id_witness :
    dictGet ((modulesSearch "u9" doneSearchState "python" true
        (some [("id", .vstr "u1")])).reply.headD []) "id" =
      .vstr ("/search_progress/" ++
        pyStr (searchIdOf "u9" (some [("id", .vstr "u1")]))) :=
  (progress_id_embeds_handle_id "u9" doneSearchState "python" true
      (some [("id", .vstr "u1")]) (by decide)).1
    ((modulesSearch "u9" doneSearchState "python" true
        (some [("id", .vstr "u1")])).reply.headD [])
    (by decide) (by decide)

/-- The non-`None` values of property `prop` over a listing, in order. -/
def nonNullVals (objs : List Dict) (prop : String) : List PyVal :=
  (objs.map (fun o => dictGet o prop)).filter (fun v => ¬(v = .vnone))

/-- `count of {o ∈ L : o[P] ≠ null}`. -/
def nonNullCount (objs : List Dict) (prop : String) : Nat :=
  (nonNullVals objs prop).length

/-- One step of first-seen deduplication under Python `==`. -/
def pyDedupStep (acc : List PyVal) (v : PyVal) : List PyVal :=
  if acc.any (fun w => pyEq w v) then acc else acc ++ [v]

/-- The distinct values of a list under Python `==`, first occurrences
kept in order — the key set of the `counts` dict. -/
def pyDistinctValues (vs : List PyVal) : List PyVal :=
  vs.foldl pyDedupStep []

/-- The group count the spec prescribes: the number of distinct non-null
stringifications `str(o[P])`.  (Stated from the spec's words, for
comparison with the source's native-value collation.) -/
def specDistinctStrCount (objs : List Dict) (prop : String) : Nat :=
  ((nonNullVals objs prop).map pyStr).dedup.length

/-- The sum of the `objects` fields of a group listing. -/
def sumObjectsField (groups : List Dict) : Int :=
  (groups.map (fun g =>
    match dictGet g "objects" with
    | .vint n => n
    | _ => 0)).sum

theorem groupCounts_eq_foldl_vals (objs : List Dict) (prop : String) :
    ∀ cs : List (PyVal × Nat),
      objs.foldl (fun cs o =>
        let v := dictGet o prop
        if v = .vnone then cs else bumpCount cs v) cs =
      (nonNullVals objs prop).foldl bumpCount cs := by
  induction objs with
  | nil => intro cs; rfl
  | cons o objs ih =>
    intro cs
    by_cases hv : dictGet o prop = .vnone
    · simp only [List.foldl_cons, nonNullVals, List.map_cons, List.filter_cons, hv]
      simpa [nonNullVals, hv] using ih cs
    · simp only [List.foldl_cons, nonNullVals, List.map_cons, List.filter_cons, hv]
      simpa [nonNullVals, hv] using ih (bumpCount cs (dictGet o prop))

theorem bumpCount_sum (cs : List (PyVal × Nat)) (v : PyVal) :
    ((bumpCount cs v).map Prod.snd).sum = (cs.map Prod.snd).sum + 1 := by
  induction cs with
  | nil => simp [bumpCount]
  | cons kv rest ih =>
    obtain ⟨k, n⟩ := kv
    by_cases h : pyEq k v = true
    · simp [bumpCount, h]
      omega
    · simp [bumpCount, h, ih]
      omega

theorem foldl_bumpCount_sum (vs : List PyVal) :
    ∀ cs : List (PyVal × Nat),
      (((vs.foldl bumpCount cs)).map Prod.snd).sum = (cs.map Prod.snd).sum + vs.length := by
  induction vs with
  | nil => intro cs; simp
  | cons v vs ih =>
    intro cs
    simp only [List.foldl_cons, List.length_cons]
    rw [ih (bumpCount cs v), bumpCount_sum]
    omega

theorem bumpCount_keys (cs : List (PyVal × Nat)) (v : PyVal) :
    (bumpCount cs v).map Prod.fst = pyDedupStep (cs.map Prod.fst) v := by
  induction cs with
  | nil => simp [bumpCount, pyDedupStep]
  | cons kv rest ih =>
    obtain ⟨k, n⟩ := kv
    by_cases h : pyEq k v = true
    · simp [bumpCount, pyDedupStep, h]
    · simp only [bumpCount, h, Bool.false_eq_true, if_false, List.map_cons]
      rw [ih]
      simp only [pyDedupStep, List.any_cons, h]
      by_cases hrest : (rest.map Prod.fst).any (fun w => pyEq w v) = true
      · simp [hrest]
      · simp [hrest]

theorem foldl_bumpCount_keys (vs : List PyVal) :
    ∀ cs : List (PyVal × Nat),
      (vs.foldl bumpCount cs).map Prod.fst = vs.foldl pyDedupStep (cs.map Prod.fst) := by
  induction vs with
  | nil => intro cs; rfl
  | cons v vs ih =>
    intro cs
    simp only [List.foldl_cons]
    rw [ih (bumpCount cs v), bumpCount_keys]

theorem sum_map_intCast (l : List Nat) :
    (l.map (fun n : Nat => (n : Int))).sum = (l.sum : Int) := by
  induction l with
  | nil => rfl
  | cons n l ih =>
    rw [List.map_cons, List.sum_cons, ih, List.sum_cons, Nat.cast_add]

/-- C3 counterexample: over the listing `[{P: 1}, {P: "1"}]` the source
emits two groups (the int `1` and the string `"1"` are distinct dict
keys), while the spec's stringified collation counts a single distinct
value `"1"`. -/
theorem groupby_distinct_str_counterexample :
    (groupObjectsByProperty "/x" [[("P", .vint 1)], [("P", .vstr "1")]] "P" "icn" none
      "/x/<GroupBy:P>").length = 2 ∧
    specDistinctStrCount [[("P", .vint 1)], [("P", .vstr "1")]] "P" = 1 ∧
    (groupObjectsByProperty "/x" [[("P", .vint 1)], [("P", .vstr "1")]] "P" "icn" none
      "/x/<GroupBy:P>").length ≠
      specDistinctStrCount [[("P", .vint 1)], [("P", .vstr "1")]] "P" := by decide

/-- C3 (amended): for every listing and property, the sum of the `objects`
fields of the groups emitted by `_group_objects_by_property` equals the
number of members whose property is non-null, and the number of groups
equals the number of distinct non-null values under Python `==` (native
dict-key collation, first occurrences kept) — which can differ from the
number of distinct stringifications when value types mix. -/
theorem groupby_totals (base : String) (objs : List Dict) (prop icon pathStr : String) :
    sumObjectsField (groupObjectsByProperty base objs prop icon none pathStr) =
      (nonNullCount objs prop : Int) ∧
    (groupObjectsByProperty base objs prop icon none pathStr).length =
      (pyDistinctValues (nonNullVals objs prop)).length := by
  have hcounts : groupCounts objs prop = (nonNullVals objs prop).foldl bumpCount [] :=
    groupCounts_eq_foldl_vals objs prop []
  constructor
  · have hmap : (groupObjectsByProperty base objs prop icon none pathStr).map
        (fun g => match dictGet g "objects" with | .vint n => n | _ => (0 : Int)) =
        (groupCounts objs prop).map (fun vc => (vc.2 : Int)) := by
      simp only [groupObjectsByProperty, List.map_map]
      rfl
    simp only [sumObjectsField, hmap, hcounts]
    have hsum := foldl_bumpCount_sum (nonNullVals objs prop) []
    simp only [List.map_nil, List.sum_nil, Nat.zero_add] at hsum
    have hmm : (List.map (fun vc : PyVal × Nat => (vc.2 : Int))
        ((nonNullVals objs prop).foldl bumpCount [])) =
        List.map (fun n : Nat => (n : Int))
          (((nonNullVals objs prop).foldl bumpCount []).map Prod.snd) := by
      rw [List.map_map]
      rfl
    rw [hmm, sum_map_intCast, hsum]
    rfl
  · have hkeys := foldl_bumpCount_keys (nonNullVals objs prop) []
    simp only [List.map_nil] at hkeys
    have h1 : (groupObjectsByProperty base objs prop icon none pathStr).length =
        (groupCounts objs prop).length := by
      simp [groupObjectsByProperty]
    have h2 : (groupCounts objs prop).length =
        ((groupCounts objs prop).map Prod.fst).length := by simp
    rw [h1, h2, hcounts, hkeys]
    rfl

/-- Three leaf jobs with `userid` values alice, alice, bob — the
listing of §8 scenario 2. -/
def demoUseridLeaves : List Dict :=
  [[("class", .vstr "WPSlurmJob"), ("id", .vstr "/part/1"), ("title", .vstr "1"),
    ("icon", .vnone), ("objects", .vint 0), ("userid", .vstr "alice")],
   [("class", .vstr "WPSlurmJob"), ("id", .vstr "/part/2"), ("title", .vstr "2"),
    ("icon", .vnone), ("objects", .vint 0), ("userid", .vstr "alice")],
   [("class", .vstr "WPSlurmJob"), ("id", .vstr "/part/3"), ("title", .vstr "3"),
    ("icon", .vnone), ("objects", .vint 0), ("userid", .vstr "bob")]]

/-- A provider listing function serving `demoUseridLeaves` everywhere. -/
def demoUseridListing : String → List Dict := fun _ => demoUseridLeaves

/-- C4 counterexample: `GetObjects` on `"/part/<GroupBy:userid>"` over the
alice/alice/bob leaves yields groups whose ids are the full request path —
`"/part/<GroupBy:userid>/<Show:userid:alice>"` — not the claimed
`"/part/<Show:userid:alice>"` (no emitted group carries the claimed
id). -/
theorem groupby_id_counterexample :
    buildObjectsForPath "/part/<GroupBy:userid>" demoUseridListing none
        "./resources/Group.png" none =
      ⟨[wpGroupToDict "/part/<GroupBy:userid>/<Show:userid:alice>" "alice"
          "./resources/Group.png" 2,
        wpGroupToDict "/part/<GroupBy:userid>/<Show:userid:bob>" "bob"
          "./resources/Group.png" 1]⟩ ∧
    (∀ g ∈ (buildObjectsForPath "/part/<GroupBy:userid>" demoUseridListing none
        "./resources/Group.png" none).objects,
      ¬(dictGet g "id" = .vstr "/part/<Show:userid:alice>")) := by decide

theorem showFilter_subset {objs : List Dict} {p v : String} {o : Dict}
    (h : o ∈ showFilter objs p v) : o ∈ objs :=
  (List.mem_filter.mp h).1

theorem applyIntermediateShows_subset {objs filtered : List Dict} {toks : List Tok}
    (h : applyIntermediateShows objs toks = some filtered) :
    ∀ o ∈ filtered, o ∈ objs := by
  induction toks generalizing objs with
  | nil =>
    simp only [applyIntermediateShows, Option.some.injEq] at h
    subst h
    exact fun o ho => ho
  | cons t rest ih =>
    obtain ⟨c, p, v⟩ := t
    simp only [applyIntermediateShows] at h
    by_cases hc : c = "Show"
    · rw [if_pos hc] at h
      match p, v with
      | some ps, some vs =>
        intro o ho
        exact showFilter_subset (ih h o ho)
      | some ps, none => simp at h
      | none, some vs => simp at h
      | none, none => simp at h
    · rw [if_neg hc] at h
      simp at h

/-- C4 (amended): for every request whose normalized pipeline ends in a
`<GroupBy:P>` token — prior tokens and any `allowed_group_fields`
whitelist included — the reply is either empty (whitelist rejection or an
invalid intermediate token) or exactly the group map over a sub-listing
`L` of the base listing: one `WPGroup` per distinct non-null value of `P`
over `L`, with `objects = count` and `title = str(value)` as claimed, but
with id the **full request path — the trailing `<GroupBy:P>` token
included —** followed by `/<Show:P:value>` (a leading `"//"` collapsed);
in particular `"/part/<Show:class:WPSlurmJob>/<GroupBy:userid>"` and
`"/part/<GroupBy:userid>"` over alice/alice/bob yield ids
`".../<GroupBy:userid>/<Show:userid:alice>"` (objects 2) and
`".../<GroupBy:userid>/<Show:userid:bob>"` (objects 1), never the claimed
base-plus-`/<Show:P:value>` ids. -/
theorem groupby_trailing_ids :
    (∀ (pathStr : String) (lfb : String → List Dict)
       (agf : Option (List String)) (icon P : String) (gv : Option String),
      (normalizeGroupbyShowTokens (parseCommandPipeline pathStr).2).getLast? =
        some ("GroupBy", some P, gv) →
      buildObjectsForPath pathStr lfb agf icon none = ⟨[]⟩ ∨
      ∃ L : List Dict,
        (∀ o ∈ L, o ∈ lfb (if (parseCommandPipeline pathStr).1 = "" then "/"
            else (parseCommandPipeline pathStr).1)) ∧
        buildObjectsForPath pathStr lfb agf icon none =
          ⟨(groupCounts L P).map (fun vc =>
            wpGroupToDict
              (stripLeadingDoubleSlash
                (pathStr ++ "/<Show:" ++ P ++ ":" ++ pyStr vc.1 ++ ">"))
              (pyStr vc.1) icon vc.2)⟩) ∧
    buildObjectsForPath "/part/<Show:class:WPSlurmJob>/<GroupBy:userid>"
        demoUseridListing none "./resources/Group.png" none =
      ⟨[wpGroupToDict
          "/part/<Show:class:WPSlurmJob>/<GroupBy:userid>/<Show:userid:alice>"
          "alice" "./resources/Group.png" 2,
        wpGroupToDict
          "/part/<Show:class:WPSlurmJob>/<GroupBy:userid>/<Show:userid:bob>"
          "bob" "./resources/Group.png" 1]⟩ ∧
    buildObjectsForPath "/part/<GroupBy:userid>" demoUseridListing none
        "./resources/Group.png" none =
      ⟨[wpGroupToDict "/part/<GroupBy:userid>/<Show:userid:alice>" "alice"
          "./resources/Group.png" 2,
        wpGroupToDict "/part/<GroupBy:userid>/<Show:userid:bob>" "bob"
          "./resources/Group.png" 1]⟩ := by
  refine ⟨?_, by decide, by decide⟩
  intro pathStr lfb agf icon P gv hlast
  cases htoks : normalizeGroupbyShowTokens (parseCommandPipeline pathStr).2 with
  | nil => rw [htoks] at hlast; simp at hlast
  | cons t ts =>
    rw [htoks] at hlast
    cases ts with
    | nil =>
      have ht : t = ("GroupBy", some P, gv) := by simpa using hlast
      subst ht
      simp only [buildObjectsForPath, htoks, evalTokens]
      cases agf with
      | none =>
        right
        refine ⟨lfb (if (parseCommandPipeline pathStr).1 = "" then "/"
          else (parseCommandPipeline pathStr).1), fun o ho => ho, ?_⟩
        simp only [groupObjectsByProperty]
      | some fields =>
        by_cases hmem : P ∈ fields
        · right
          refine ⟨lfb (if (parseCommandPipeline pathStr).1 = "" then "/"
            else (parseCommandPipeline pathStr).1), fun o ho => ho, ?_⟩
          simp only [if_pos hmem, groupObjectsByProperty]
        · left
          simp only [if_neg hmem]
    | cons t2 rest =>
      have hlastD : (t :: t2 :: rest).getLastD ("", none, none) =
          ("GroupBy", some P, gv) := by
        rw [List.getLastD_eq_getLast?, hlast]
        rfl
      simp only [buildObjectsForPath, htoks, evalTokens, hlastD]
      have hspec : specialCaseResult
          (lfb (if (parseCommandPipeline pathStr).1 = "" then "/"
            else (parseCommandPipeline pathStr).1))
          ((t :: t2 :: rest).dropLast) ("GroupBy", some P, gv)
          (t :: t2 :: rest) = none := rfl
      rw [hspec]
      simp only [generalCaseResult]
      cases hint : applyIntermediateShows
          (lfb (if (parseCommandPipeline pathStr).1 = "" then "/"
            else (parseCommandPipeline pathStr).1))
          ((t :: t2 :: rest).dropLast) with
      | none => left; rfl
      | some filtered =>
        cases agf with
        | none =>
          right
          exact ⟨filtered, applyIntermediateShows_subset hint,
            by simp only [groupObjectsByProperty]⟩
        | some fields =>
          by_cases hmem : P ∈ fields
          · right
            refine ⟨filtered, applyIntermediateShows_subset hint, ?_⟩
            simp only [if_pos hmem, groupObjectsByProperty]
          · left
            simp only [if_neg hmem]

/-- Witness for C4 (amended): the general conjunct at the prior-token
request `"/part/<Show:class:WPSlurmJob>/<GroupBy:userid>"`. -/
theorem groupby_trailing_ids_witness :
    buildObjectsForPath "/part/<Show:class:WPSlurmJob>/<GroupBy:userid>"
        demoUseridListing none "./resources/Group.png" none = ⟨[]⟩ ∨
    ∃ L : List Dict,
      (∀ o ∈ L, o ∈ demoUseridListing
          (if (parseCommandPipeline
                "/part/<Show:class:WPSlurmJob>/<GroupBy:userid>").1 = "" then "/"
            else (parseCommandPipeline
                "/part/<Show:class:WPSlurmJob>/<GroupBy:userid>").1)) ∧
      buildObjectsForPath "/part/<Show:class:WPSlurmJob>/<GroupBy:userid>"
          demoUseridListing none "./resources/Group.png" none =
        ⟨(groupCounts L "userid").map (fun vc =>
          wpGroupToDict
            (stripLeadingDoubleSlash
              ("/part/<Show:class:WPSlurmJob>/<GroupBy:userid>" ++ "/<Show:" ++
                "userid" ++ ":" ++ pyStr vc.1 ++ ">"))
            (pyStr vc.1) "./resources/Group.png" vc.2)⟩ :=
  groupby_trailing_ids.1 "/part/<Show:class:WPSlurmJob>/<GroupBy:userid>"
    demoUseridListing none "./resources/Group.png" "userid" none (by decide)

theorem applyIntermediateShows_none {objs : List Dict} {toks : List Tok}
    (h : ∃ t ∈ toks, isValidShowTok t = false) :
    applyIntermediateShows objs toks = none := by
  induction toks generalizing objs with
  | nil => simp at h
  | cons t rest ih =>
    obtain ⟨c, p, v⟩ := t
    obtain ⟨t0, ht0, hbad⟩ := h
    rcases List.mem_cons.mp ht0 with he | hm
    · subst he
      by_cases hc : c = "Show"
      · subst hc
        simp only [applyIntermediateShows]
        match p, v with
        | some ps, some vs => simp [isValidShowTok] at hbad
        | some ps, none => simp
        | none, some vs => simp
        | none, none => simp
      · simp [applyIntermediateShows, hc]
    · by_cases hc : c = "Show"
      · subst hc
        simp only [applyIntermediateShows]
        match p, v with
        | some ps, some vs => exact ih ⟨t0, hm, hbad⟩
        | some ps, none => simp
        | none, some vs => simp
        | none, none => simp
      · simp [applyIntermediateShows, hc]

/-- C5 counterexample: in the pipeline
`/p/<GroupBy:u>/<Show:c:1>/<Show:u:a>` the `<GroupBy:u>` token survives
normalization (the next token filters on `c`, not `u`) and sits in
intermediate position, yet the evaluation is not empty: the drill-through
special case ignores the `GroupBy` and applies both `Show` filters. -/
theorem intermediate_groupby_counterexample :
    normalizeGroupbyShowTokens
        (parseCommandPipeline "/p/<GroupBy:u>/<Show:c:1>/<Show:u:a>").2 =
      [("GroupBy", some "u", none), ("Show", some "c", some "1"),
       ("Show", some "u", some "a")] ∧
    buildObjectsForPath "/p/<GroupBy:u>/<Show:c:1>/<Show:u:a>"
        (fun _ => [[("u", .vstr "a"), ("c", .vstr "1")],
                   [("u", .vstr "b"), ("c", .vstr "1")]]) none "icn" none =
      ⟨[[("u", .vstr "a"), ("c", .vstr "1")]]⟩ ∧
    (⟨[[("u", .vstr "a"), ("c", .vstr "1")]]⟩ : ObjectsReply) ≠ ⟨[]⟩ := by decide

/-- C5 (amended): in a multi-token pipeline an intermediate token that is
not a valid `Show` filter makes the evaluation empty **unless** the
drill-through special case applies — the trailing token is `Show:P:V`,
the last `GroupBy` among the leading tokens carries the same property `P`,
and every other leading token is a valid `Show`; in that case the
`GroupBy` is ignored and every `Show` token (the trailing one included) is
applied to the base listing. -/
theorem intermediate_show_only (pathStr baseClean : String)
    (lfb : String → List Dict) (agf : Option (List String)) (icon : String)
    (mg : Option (String → String → Nat → Dict)) (t1 t2 : Tok) (rest : List Tok) :
    (specialCaseResult (lfb baseClean) ((t1 :: t2 :: rest).dropLast)
        ((t1 :: t2 :: rest).getLastD ("", none, none)) (t1 :: t2 :: rest) = none →
      (∃ t ∈ (t1 :: t2 :: rest).dropLast, isValidShowTok t = false) →
      evalTokens pathStr baseClean (t1 :: t2 :: rest) lfb agf icon mg = ⟨[]⟩) ∧
    (∀ (lastProp lastVal : String) (gbIdx : Nat) (gbCmd : String)
        (gbVal : Option String),
      (t1 :: t2 :: rest).getLastD ("", none, none) =
        ("Show", some lastProp, some lastVal) →
      findLastGroupBy ((t1 :: t2 :: rest).dropLast) =
        some (gbIdx, (gbCmd, some lastProp, gbVal)) →
      validFrontExceptGb ((t1 :: t2 :: rest).dropLast) gbIdx = true →
      evalTokens pathStr baseClean (t1 :: t2 :: rest) lfb agf icon mg =
        ⟨applyAllShowFilters (lfb baseClean) (t1 :: t2 :: rest)⟩) := by
  constructor
  · intro hnone hbad
    simp only [evalTokens, hnone]
    simp only [generalCaseResult, applyIntermediateShows_none hbad]
  · intro lastProp lastVal gbIdx gbCmd gbVal hlast hgb hvalid
    simp only [evalTokens, hlast, specialCaseResult, hgb, hvalid, if_pos rfl, if_true]

/-- Witness for C5 (amended), both arms, at the counterexample pipeline
and at a genuinely invalid one. -/
theorem intermediate_show_only_witness :
    evalTokens "/p/<Foo:x>/<Show:u:a>" "/p"
      [("Foo", some "x", none), ("Show", some "u", some "a")]
      (fun _ => [[("u", .vstr "a")]]) none "icn" none = ⟨[]⟩ ∧
    evalTokens "/p/<GroupBy:u>/<Show:c:1>/<Show:u:a>" "/p"
      [("GroupBy", some "u", none), ("Show", some "c", some "1"),
       ("Show", some "u", some "a")]
      (fun _ => [[("u", .vstr "a"), ("c", .vstr "1")]]) none "icn" none =
      ⟨applyAllShowFilters ((fun _ => [[("u", .vstr "a"), ("c", .vstr "1")]])
          ("/p" : String))
        [("GroupBy", some "u", none), ("Show", some "c", some "1"),
         ("Show", some "u", some "a")]⟩ :=
  ⟨(intermediate_show_only "/p/<Foo:x>/<Show:u:a>" "/p"
      (fun _ => [[("u", .vstr "a")]]) none "icn" none
      ("Foo", some "x", none) ("Show", some "u", some "a") []).1 (by decide)
      ⟨("Foo", some "x", none), by decide, by decide⟩,
   (intermediate_show_only "/p/<GroupBy:u>/<Show:c:1>/<Show:u:a>" "/p"
      (fun _ => [[("u", .vstr "a"), ("c", .vstr "1")]]) none "icn" none
      ("GroupBy", some "u", none) ("Show", some "c", some "1")
      [("Show", some "u", some "a")]).2 "u" "a" 0 "GroupBy" none (by decide) (by decide)
      (by decide)⟩

/-- The characters of a `GroupBy:P` token. -/
def gbTokenChars (P : Chars) : Chars := "GroupBy".data ++ ':' :: P

/-- The characters of a `Show:P:v` token. -/
def showTokenChars (P v : Chars) : Chars := "Show".data ++ ':' :: (P ++ ':' :: v)

/-- The request id `/X/<GroupBy:P>/<Show:P:v>`. -/
def groupShowDrillPath (X P v : Chars) : String :=
  String.mk ('/' :: (X ++ '/' :: '<' ::
    (gbTokenChars P ++ '>' :: ('/' :: '<' :: (showTokenChars P v ++ ['>'])))))

/-- The request id `/X/<Show:P:v>`. -/
def showOnlyPath (X P v : Chars) : String :=
  String.mk ('/' :: (X ++ '/' :: '<' :: (showTokenChars P v ++ ['>'])))

theorem endsGt_concat (l : Chars) : endsGt (l ++ ['>']) = true := by
  induction l with
  | nil => rfl
  | cons x xs ih =>
    simp only [endsGt, List.cons_append] at *
    cases xs <;> simp_all

theorem endsGt_cons_of (x : Char) {l : Chars} (h : endsGt l = true) :
    endsGt (x :: l) = true := by
  cases l with
  | nil => simp [endsGt] at h
  | cons y ys => simpa [endsGt, List.getLast?_cons_cons] using h

theorem endsGt_append_of (A : Chars) {B : Chars} (h : endsGt B = true) :
    endsGt (A ++ B) = true := by
  induction A with
  | nil => simpa
  | cons a A ih => simpa using endsGt_cons_of a ih

theorem rsplit_none_inv {c : Char} {l : Chars} (h : rsplitLtSlash (c :: l) = none) :
    rsplitLtSlash l = none := by
  cases hl : rsplitLtSlash l with
  | some p =>
    obtain ⟨a, b⟩ := p
    simp [rsplitLtSlash, hl] at h
  | none => rfl

theorem rsplit_none_head {c : Char} {l : Chars} (h : rsplitLtSlash (c :: l) = none) :
    ¬(c = '/' ∧ l.head? = some '<') := by
  intro hc
  have hl : rsplitLtSlash l = none := rsplit_none_inv h
  simp [rsplitLtSlash, hl, hc] at h

theorem rsplit_cons_of_head {c : Char} {l : Chars}
    (hc : ¬(c = '/' ∧ l.head? = some '<'))
    (hl : rsplitLtSlash l = none) : rsplitLtSlash (c :: l) = none := by
  simp [rsplitLtSlash, hl, hc]

theorem rsplit_cons_of_ne {c : Char} {l : Chars} (hc : ¬(c = '/'))
    (hl : rsplitLtSlash l = none) : rsplitLtSlash (c :: l) = none :=
  rsplit_cons_of_head (fun hx => hc hx.1) hl

theorem rsplit_append_none {A B : Chars} (hA : rsplitLtSlash A = none)
    (hB : rsplitLtSlash B = none)
    (hj : ¬(A.getLast? = some '/' ∧ B.head? = some '<')) :
    rsplitLtSlash (A ++ B) = none := by
  induction A with
  | nil => simpa using hB
  | cons a A ih =>
    have hA2 : rsplitLtSlash A = none := rsplit_none_inv hA
    have hrec : rsplitLtSlash (A ++ B) = none := by
      apply ih hA2
      cases A with
      | nil => simp
      | cons x xs =>
        intro hx
        exact hj (by simpa [List.getLast?_cons_cons] using hx)
    apply rsplit_cons_of_head _ hrec
    intro hx
    cases A with
    | nil =>
      exact hj ⟨by simp [hx.1], by simpa using hx.2⟩
    | cons x xs =>
      have hx2 : x = '<' := by simpa using hx.2
      exact rsplit_none_head hA ⟨hx.1, by simp [hx2]⟩

theorem rsplit_concat_gt {T : Chars} (hT : rsplitLtSlash T = none) :
    rsplitLtSlash (T ++ ['>']) = none := by
  apply rsplit_append_none hT (by decide)
  intro hx
  simpa using hx.2

theorem rsplit_token_none {T : Chars} (hT : rsplitLtSlash T = none) :
    rsplitLtSlash ('<' :: (T ++ ['>'])) = none :=
  rsplit_cons_of_ne (by decide) (rsplit_concat_gt hT)

theorem rsplit_gbToken_none {P : Chars} (hP : rsplitLtSlash P = none) :
    rsplitLtSlash (gbTokenChars P) = none := by
  have h1 : rsplitLtSlash ("GroupBy".data ++ [':']) = none := by decide
  have hj : ¬(("GroupBy".data ++ [':']).getLast? = some '/' ∧ P.head? = some '<') := by
    intro hx
    exact absurd hx.1 (by decide)
  have h2 := rsplit_append_none h1 hP hj
  have hsh : gbTokenChars P = ("GroupBy".data ++ [':']) ++ P := by
    simp [gbTokenChars]
  rw [hsh]
  exact h2

theorem rsplit_showToken_none {P v : Chars} (hP : rsplitLtSlash P = none)
    (hv : rsplitLtSlash v = none) :
    rsplitLtSlash (showTokenChars P v) = none := by
  have h1 : rsplitLtSlash ("Show".data ++ [':']) = none := by decide
  have hj1 : ¬(("Show".data ++ [':']).getLast? = some '/' ∧ P.head? = some '<') := by
    intro hx
    exact absurd hx.1 (by decide)
  have hA : rsplitLtSlash (("Show".data ++ [':']) ++ P) = none :=
    rsplit_append_none h1 hP hj1
  have hcv : rsplitLtSlash (':' :: v) = none := rsplit_cons_of_ne (by decide) hv
  have hj2 : ¬((("Show".data ++ [':']) ++ P).getLast? = some '/' ∧
      (':' :: v).head? = some '<') := by
    intro hx
    simpa using hx.2
  have h2 := rsplit_append_none hA hcv hj2
  have hsh : showTokenChars P v = (("Show".data ++ [':']) ++ P) ++ ':' :: v := by
    simp [showTokenChars]
  rw [hsh]
  exact h2

theorem splitFirstColon_cons_ne {c : Char} (l : Chars) (hc : ¬(c = ':')) :
    splitFirstColon (c :: l) = (c :: (splitFirstColon l).1, (splitFirstColon l).2) := by
  simp only [splitFirstColon, if_neg hc]

theorem splitFirstColon_fst_append (P R : Chars) :
    (splitFirstColon (P ++ ':' :: R)).1 = (splitFirstColon P).1 := by
  induction P with
  | nil => simp [splitFirstColon]
  | cons c cs ih =>
    by_cases hc : c = ':'
    · simp [splitFirstColon, hc]
    · rw [List.cons_append, splitFirstColon_cons_ne _ hc, splitFirstColon_cons_ne _ hc]
      simpa using ih

theorem splitFirstColon_snd_append (P R : Chars) :
    (splitFirstColon (P ++ ':' :: R)).2 ≠ none := by
  induction P with
  | nil => simp [splitFirstColon]
  | cons c cs ih =>
    by_cases hc : c = ':'
    · simp [splitFirstColon, hc]
    · rw [List.cons_append, splitFirstColon_cons_ne _ hc]
      simpa using ih

theorem splitTok_gb (P : Chars) :
    splitTok (gbTokenChars P) =
      ("GroupBy", some (String.mk (splitFirstColon P).1),
       ((splitFirstColon P).2).map String.mk) := by
  simp only [splitTok, gbTokenChars]
  rw [splitFirstColon_append (by decide)]

theorem splitTok_show (P v : Chars) :
    splitTok (showTokenChars P v) =
      ("Show", some (String.mk (splitFirstColon (P ++ ':' :: v)).1),
       ((splitFirstColon (P ++ ':' :: v)).2).map String.mk) := by
  simp only [splitTok, showTokenChars]
  rw [splitFirstColon_append (by decide)]

theorem peelTokens_stop (X : Chars) (acc : List Tok) (hXe : endsGt X = false) :
    peelTokens X acc = (X, acc) := by
  rw [peelTokens_unfold, hXe]
  simp

theorem peelTokens_pop (A T : Chars) (acc : List Tok) (hT : rsplitLtSlash T = none) :
    peelTokens (A ++ '/' :: '<' :: (T ++ ['>'])) acc =
      peelTokens A (splitTok T :: acc) := by
  rw [peelTokens_unfold]
  have hgt : endsGt (A ++ '/' :: '<' :: (T ++ ['>'])) = true :=
    endsGt_append_of A (endsGt_cons_of _ (endsGt_cons_of _ (endsGt_concat _)))
  rw [hgt]
  simp only [if_true]
  rw [rsplitLtSlash_append (rsplit_token_none hT)]
  simp only [List.dropLast_concat]

theorem peelTokens_lead (T : Chars) (acc : List Tok) (hT : rsplitLtSlash T = none) :
    peelTokens ('<' :: (T ++ ['>'])) acc = ([], splitTok T :: acc) := by
  rw [peelTokens_unfold]
  have hgt : endsGt ('<' :: (T ++ ['>'])) = true :=
    endsGt_cons_of _ (endsGt_concat _)
  rw [hgt]
  simp only [if_true]
  rw [rsplit_token_none hT]
  simp only [List.head?_cons, List.drop_succ_cons, List.drop_zero,
    List.dropLast_concat, if_pos]
  exact peelTokens_stop [] _ rfl

theorem charsPrefix_slash_lstrip (X : Chars) :
    charsPrefix ['/'] (lstripSlash X) = false := by
  induction X with
  | nil => rfl
  | cons c cs ih =>
    by_cases hc : c = '/'
    · simpa [lstripSlash, List.dropWhile_cons, hc] using ih
    · have hcc : ¬('/' = c) := fun h => hc h.symm
      simp [lstripSlash, List.dropWhile_cons, hc, charsPrefix, hcc]

theorem lstripSlash_getLast (X : Chars) (h : lstripSlash X ≠ []) :
    (lstripSlash X).getLast? = X.getLast? := by
  induction X with
  | nil => simp [lstripSlash] at h
  | cons c cs ih =>
    by_cases hc : c = '/'
    · have hstep : lstripSlash (c :: cs) = lstripSlash cs := by
        simp [lstripSlash, List.dropWhile_cons, hc]
      rw [hstep] at h ⊢
      rw [ih h]
      have hcs : cs ≠ [] := by
        intro he
        rw [he] at h
        exact h rfl
      cases cs with
      | nil => exact absurd rfl hcs
      | cons d ds => simp [List.getLast?_cons_cons]
    · have hstep : lstripSlash (c :: cs) = c :: cs := by
        simp [lstripSlash, List.dropWhile_cons, hc]
      rw [hstep]

theorem endsGt_lstripSlash {X : Chars} (h : lstripSlash X ≠ [])
    (hXe : endsGt X = false) : endsGt (lstripSlash X) = false := by
  simp only [endsGt] at *
  rw [lstripSlash_getLast X h]
  exact hXe

theorem lstripSlash_append_ne {A : Chars} (R : Chars) (h : lstripSlash A ≠ []) :
    lstripSlash (A ++ R) = lstripSlash A ++ R := by
  induction A with
  | nil => simp [lstripSlash] at h
  | cons c cs ih =>
    by_cases hc : c = '/'
    · have h2 : lstripSlash cs ≠ [] := by
        intro he
        apply h
        rw [(by simp [lstripSlash, List.dropWhile_cons, hc] :
          lstripSlash (c :: cs) = lstripSlash cs)]
        exact he
      rw [List.cons_append,
        (by simp [lstripSlash, List.dropWhile_cons, hc] :
          lstripSlash (c :: (cs ++ R)) = lstripSlash (cs ++ R)),
        (by simp [lstripSlash, List.dropWhile_cons, hc] :
          lstripSlash (c :: cs) = lstripSlash cs)]
      exact ih h2
    · rw [List.cons_append,
        (by simp [lstripSlash, List.dropWhile_cons, hc] :
          lstripSlash (c :: (cs ++ R)) = c :: (cs ++ R)),
        (by simp [lstripSlash, List.dropWhile_cons, hc] :
          lstripSlash (c :: cs) = c :: cs)]
      rfl

theorem lstripSlash_append_empty {A : Chars} (R : Chars) (h : lstripSlash A = []) :
    lstripSlash (A ++ R) = lstripSlash R := by
  induction A with
  | nil => rfl
  | cons c cs ih =>
    by_cases hc : c = '/'
    · rw [List.cons_append,
        (by simp [lstripSlash, List.dropWhile_cons, hc] :
          lstripSlash (c :: (cs ++ R)) = lstripSlash (cs ++ R))]
      apply ih
      simpa [lstripSlash, List.dropWhile_cons, hc] using h
    · rw [(by simp [lstripSlash, List.dropWhile_cons, hc] :
        lstripSlash (c :: cs) = c :: cs)] at h
      simp at h

theorem parse_showOnlyPath (X P v : Chars) (hXe : endsGt X = false)
    (hP : rsplitLtSlash P = none) (hv : rsplitLtSlash v = none) :
    parseCommandPipeline (showOnlyPath X P v) =
      (String.mk ('/' :: lstripSlash X), [splitTok (showTokenChars P v)]) := by
  simp only [parseCommandPipeline, showOnlyPath]
  have hstep : lstripSlash ('/' :: (X ++ '/' :: '<' ::
      (showTokenChars P v ++ ['>']))) =
      lstripSlash (X ++ '/' :: '<' :: (showTokenChars P v ++ ['>'])) := by
    simp [lstripSlash, List.dropWhile_cons]
  rw [hstep]
  by_cases hX : lstripSlash X = []
  · rw [lstripSlash_append_empty _ hX]
    have hR : lstripSlash ('/' :: '<' :: (showTokenChars P v ++ ['>'])) =
        '<' :: (showTokenChars P v ++ ['>']) := by
      simp [lstripSlash, List.dropWhile_cons]
    rw [hR, peelTokens_lead _ _ (rsplit_showToken_none hP hv)]
    simp [hX]
  · rw [lstripSlash_append_ne _ hX,
      peelTokens_pop _ _ _ (rsplit_showToken_none hP hv),
      peelTokens_stop _ _ (endsGt_lstripSlash hX hXe)]
    have h2 : charsPrefix ['/']
        ('/' :: (X ++ '/' :: '<' :: (showTokenChars P v ++ ['>']))) = true := by
      simp [charsPrefix]
    have h3 : charsPrefix ['/'] (lstripSlash X) = false := charsPrefix_slash_lstrip X
    simp [hX, h2, h3]

theorem parse_groupShowDrillPath (X P v : Chars) (hXe : endsGt X = false)
    (hP : rsplitLtSlash P = none) (hv : rsplitLtSlash v = none) :
    parseCommandPipeline (groupShowDrillPath X P v) =
      (String.mk ('/' :: lstripSlash X),
       [splitTok (gbTokenChars P), splitTok (showTokenChars P v)]) := by
  simp only [parseCommandPipeline, groupShowDrillPath]
  have hstep : lstripSlash ('/' :: (X ++ '/' :: '<' ::
      (gbTokenChars P ++ '>' :: ('/' :: '<' :: (showTokenChars P v ++ ['>']))))) =
      lstripSlash (X ++ '/' :: '<' ::
        (gbTokenChars P ++ '>' :: ('/' :: '<' :: (showTokenChars P v ++ ['>'])))) := by
    simp [lstripSlash, List.dropWhile_cons]
  rw [hstep]
  by_cases hX : lstripSlash X = []
  · rw [lstripSlash_append_empty _ hX]
    have hR : lstripSlash ('/' :: '<' ::
        (gbTokenChars P ++ '>' :: ('/' :: '<' :: (showTokenChars P v ++ ['>'])))) =
        '<' :: (gbTokenChars P ++ '>' ::
          ('/' :: '<' :: (showTokenChars P v ++ ['>']))) := by
      simp [lstripSlash, List.dropWhile_cons]
    rw [hR]
    have hshape : '<' :: (gbTokenChars P ++ '>' ::
        ('/' :: '<' :: (showTokenChars P v ++ ['>']))) =
        ('<' :: (gbTokenChars P ++ ['>'])) ++ '/' :: '<' ::
          (showTokenChars P v ++ ['>']) := by
      simp
    rw [hshape, peelTokens_pop _ _ _ (rsplit_showToken_none hP hv),
      peelTokens_lead _ _ (rsplit_gbToken_none hP)]
    simp [hX]
  · rw [lstripSlash_append_ne _ hX]
    have hshape : lstripSlash X ++ '/' :: '<' ::
        (gbTokenChars P ++ '>' :: ('/' :: '<' :: (showTokenChars P v ++ ['>']))) =
        (lstripSlash X ++ '/' :: '<' :: (gbTokenChars P ++ ['>'])) ++ '/' :: '<' ::
          (showTokenChars P v ++ ['>']) := by
      simp
    rw [hshape, peelTokens_pop _ _ _ (rsplit_showToken_none hP hv),
      peelTokens_pop _ _ _ (rsplit_gbToken_none hP),
      peelTokens_stop _ _ (endsGt_lstripSlash hX hXe)]
    have h2 : charsPrefix ['/'] ('/' :: (X ++ '/' :: '<' ::
        (gbTokenChars P ++ '>' :: ('/' :: '<' :: (showTokenChars P v ++ ['>']))))) =
        true := by
      simp [charsPrefix]
    have h3 : charsPrefix ['/'] (lstripSlash X) = false := charsPrefix_slash_lstrip X
    simp [hX, h2, h3]

/-- C2 (amended): evaluating `/X/<GroupBy:P>/<Show:P:v>` through
`build_objects_for_path` returns exactly the result of `/X/<Show:P:v>`
for every base path `X` that does not itself end in a command token (does
not end with `'>'`) and every property `P` and value `v` free of the
token separator `"/<"` (`rsplitLtSlash l = none` states `"/<" not in
l`): `X` may be empty or begin or end with slashes, and `P` and `v` may
contain `':'` or a bare `'<'` — normalization collapses the adjacent pair
to the `Show` filter, whatever the listing, whitelist, icon or group
factory. -/
theorem groupby_show_drill_normalization (X P v : Chars) (lfb : String → List Dict)
    (agf : Option (List String)) (icon : String)
    (mg : Option (String → String → Nat → Dict))
    (hXe : endsGt X = false) (hP : rsplitLtSlash P = none)
    (hv : rsplitLtSlash v = none) :
    buildObjectsForPath (groupShowDrillPath X P v) lfb agf icon mg =
      buildObjectsForPath (showOnlyPath X P v) lfb agf icon mg := by
  simp only [buildObjectsForPath]
  rw [parse_groupShowDrillPath X P v hXe hP hv, parse_showOnlyPath X P v hXe hP hv]
  rw [splitTok_gb, splitTok_show]
  rw [splitFirstColon_fst_append]
  rcases hsnd : (splitFirstColon (P ++ ':' :: v)).2 with - | r
  · exact absurd hsnd (splitFirstColon_snd_append P v)
  · simp [normalizeGroupbyShowTokens, evalTokens]

/-- A one-object listing used by the C2 counterexample. -/
def cexDrillListing : String → List Dict :=
  fun _ => [[("P", .vstr "v"), ("x", .vint 1)]]

/-- A listing with `u = x` and `c = 1`, used by the `"/<"` conjuncts of
the C2 counterexample. -/
def cexLtSlashListing : String → List Dict :=
  fun _ => [[("u", .vstr "x"), ("c", .vstr "1")]]

/-- C2 counterexample: each exclusion of the amended statement is forced.
With the base path `X = a/<GroupBy:P>/<GroupBy:P>` (a path that itself
ends in command tokens) the appended `GroupBy` collapses with the `Show`
during normalization, leaving two leading `GroupBy` tokens whose
drill-through validation fails only on the longer path, which evaluates
empty while the shorter returns the matching leaf; with `"/<"` inside `P`
(`P = u:x>/<Show:c`) the tokenization of the two paths diverges and the
longer one evaluates empty while the shorter returns the leaf; and with
`"/<"` inside `v` (`v = x>/<GroupBy:c`) both paths end in a smuggled
trailing `GroupBy` whose group ids embed the two different full request
paths. -/
theorem groupby_show_drill_counterexample :
    groupShowDrillPath "a/<GroupBy:P>/<GroupBy:P>".data "P".data "v".data =
      "/a/<GroupBy:P>/<GroupBy:P>/<GroupBy:P>/<Show:P:v>" ∧
    showOnlyPath "a/<GroupBy:P>/<GroupBy:P>".data "P".data "v".data =
      "/a/<GroupBy:P>/<GroupBy:P>/<Show:P:v>" ∧
    buildObjectsForPath "/a/<GroupBy:P>/<GroupBy:P>/<GroupBy:P>/<Show:P:v>"
      cexDrillListing none "icn" none = ObjectsReply.mk [] ∧
    buildObjectsForPath "/a/<GroupBy:P>/<GroupBy:P>/<Show:P:v>"
      cexDrillListing none "icn" none =
        ObjectsReply.mk [[("P", .vstr "v"), ("x", .vint 1)]] ∧
    buildObjectsForPath "/a/<GroupBy:P>/<GroupBy:P>/<GroupBy:P>/<Show:P:v>"
        cexDrillListing none "icn" none ≠
      buildObjectsForPath "/a/<GroupBy:P>/<GroupBy:P>/<Show:P:v>"
        cexDrillListing none "icn" none ∧
    groupShowDrillPath "a".data "u:x>/<Show:c".data "1".data =
      "/a/<GroupBy:u:x>/<Show:c>/<Show:u:x>/<Show:c:1>" ∧
    showOnlyPath "a".data "u:x>/<Show:c".data "1".data =
      "/a/<Show:u:x>/<Show:c:1>" ∧
    buildObjectsForPath "/a/<GroupBy:u:x>/<Show:c>/<Show:u:x>/<Show:c:1>"
        cexLtSlashListing none "icn" none ≠
      buildObjectsForPath "/a/<Show:u:x>/<Show:c:1>"
        cexLtSlashListing none "icn" none ∧
    groupShowDrillPath "a".data "u".data "x>/<GroupBy:c".data =
      "/a/<GroupBy:u>/<Show:u:x>/<GroupBy:c>" ∧
    showOnlyPath "a".data "u".data "x>/<GroupBy:c".data =
      "/a/<Show:u:x>/<GroupBy:c>" ∧
    buildObjectsForPath "/a/<GroupBy:u>/<Show:u:x>/<GroupBy:c>"
        cexLtSlashListing none "icn" none ≠
      buildObjectsForPath "/a/<Show:u:x>/<GroupBy:c>"
        cexLtSlashListing none "icn" none := by decide

/-- Witness for C2 (amended) at `X = part`, `P = userid`, `v = alice`. -/
theorem groupby_show_drill_normalization_witness :
    buildObjectsForPath (groupShowDrillPath "part".data "userid".data "alice".data)
        demoUseridListing none "./resources/Group.png" none =
      buildObjectsForPath (showOnlyPath "part".data "userid".data "alice".data)
        demoUseridListing none "./resources/Group.png" none :=
  groupby_show_drill_normalization "part".data "userid".data "alice".data
    demoUseridListing none "./resources/Group.png" none (by decide) (by decide)
    (by decide)
